import Mathlib

/-!
Verification of the reactive rendering core of the `next.rs` framework:
a shallow embedding, in Lean 4, of the action registry and dispatcher
(`next-actions/src/registry.rs`, `next-server/src/handler.rs`), the static
file server (`next-server/src/handler.rs`), the route matcher
(`next-router/src/matcher.rs`, `segment.rs`), the HTML serializer
(`react-dom/src/render.rs`) and the reactivity runtime
(`react-core/src/{runtime,signal,effect,memo}.rs`), together with proofs
of the specified behaviours.
-/

set_option maxRecDepth 8000

namespace NextRs

/-! ## JSON values

Shallow embedding of `serde_json::Value` as used by the action layer. -/

inductive Json where
  | null
  | bool (b : Bool)
  | num (n : Int)
  | str (s : String)
  | arr (items : List Json)
  | obj (fields : List (String × Json))

/-! ## Actions (`crates/next-actions/src/action.rs`) -/

/-- `ActionError { message, code }` from `action.rs`. -/
structure ActionError where
  message : String
  code : Option String
deriving Repr

/-- `ActionError::new` — message only, no code. -/
def ActionError.mkNew (message : String) : ActionError :=
  { message := message, code := none }

/-- `ActionError::with_code`. -/
def ActionError.withCode (message code : String) : ActionError :=
  { message := message, code := some code }

/-- `ActionResult<T> = Result<T, ActionError>`. -/
abbrev ActionResult (α : Type) := Except ActionError α

/-- `ActionRequest { action_id, payload }`. -/
structure ActionRequest where
  action_id : String
  payload : Json

/-- `ActionResponse { success, data, error }`. -/
structure ActionResponse where
  success : Bool
  data : Option Json
  error : Option ActionError

/-- `ActionResponse::success(data)` (in the registry `data` is already a
`serde_json::Value`, for which `to_value(..).ok()` is `Some data`). -/
def ActionResponse.mkSuccess (data : Json) : ActionResponse :=
  { success := true, data := some data, error := none }

/-- `ActionResponse::error(error)`. -/
def ActionResponse.mkError (e : ActionError) : ActionResponse :=
  { success := false, data := none, error := some e }

/-! ## Action registry (`crates/next-actions/src/registry.rs`) -/

/-- The `BoxedHandler` type: a wrapped handler from payload JSON to an
`ActionResult<serde_json::Value>` (futures are modelled as already awaited;
the dispatcher awaits them on the request task). -/
abbrev BoxedHandler := Json → ActionResult Json

/-- Association-list lookup, modelling `HashMap::get`. -/
def lookupAssoc {α : Type} : List (String × α) → String → Option α
  | [], _ => none
  | (k, v) :: rest, key => if k = key then some v else lookupAssoc rest key

/-- Association-list insert, modelling `HashMap::insert` (replace or add). -/
def insertAssoc {α : Type} : List (String × α) → String → α → List (String × α)
  | [], key, v => [(key, v)]
  | (k, old) :: rest, key, v =>
    if k = key then (k, v) :: rest else (k, old) :: insertAssoc rest key v

/-- `ActionRegistry { handlers: HashMap<String, Arc<BoxedHandler>> }`. -/
structure ActionRegistry where
  handlers : List (String × BoxedHandler)

/-- `ActionRegistry::new`. -/
def ActionRegistry.mkNew : ActionRegistry := { handlers := [] }

/-- The closure built by `ActionRegistry::register`: decode the input JSON
(serde decode failure becomes an `INVALID_INPUT` error), run the handler,
serialize the output (serialization failure becomes a plain error).
`decode` and `serialize` stand for `serde_json::from_value` /
`serde_json::to_value` at the handler's input/output types. -/
def wrapHandler {I O : Type} (decode : Json → Except String I)
    (handler : I → ActionResult O) (serialize : O → Except String Json) :
    BoxedHandler := fun value =>
  match decode value with
  | .ok input =>
    match handler input with
    | .ok result =>
      match serialize result with
      | .ok json => .ok json
      | .error e => .error (ActionError.mkNew ("Serialization error: " ++ e))
    | .error e => .error e
  | .error e => .error (ActionError.withCode ("Invalid input: " ++ e) "INVALID_INPUT")

/-- `ActionRegistry::register`. -/
def ActionRegistry.register {I O : Type} (r : ActionRegistry) (action_id : String)
    (decode : Json → Except String I) (handler : I → ActionResult O)
    (serialize : O → Except String Json) : ActionRegistry :=
  { handlers := insertAssoc r.handlers action_id (wrapHandler decode handler serialize) }

/-- `ActionRegistry::has`. -/
def ActionRegistry.has (r : ActionRegistry) (action_id : String) : Bool :=
  (lookupAssoc r.handlers action_id).isSome

/-- `ActionRegistry::execute`. -/
def ActionRegistry.execute (r : ActionRegistry) (request : ActionRequest) :
    ActionResponse :=
  match lookupAssoc r.handlers request.action_id with
  | some handler =>
    match handler request.payload with
    | .ok data => ActionResponse.mkSuccess data
    | .error e => ActionResponse.mkError e
  | none => ActionResponse.mkError (ActionError.withCode
      ("Action '" ++ request.action_id ++ "' not found") "ACTION_NOT_FOUND")

/-! ## Action dispatch (`crates/next-server/src/handler.rs`) -/

/-- The part of the hyper response that `handle_action_request` determines:
status code, content type, and the `ActionResponse` that is serialized into
the body. -/
structure ActionHttpResponse where
  status : Nat
  contentType : String
  body : ActionResponse

/-- `str::strip_prefix`, returning the remainder when `s` starts with `p`
(character-level model of the Rust operation). -/
def stripPre (p s : String) : Option String :=
  if p.data.isPrefixOf s.data then some (String.mk (s.data.drop p.data.length))
  else none

/-- `ACTION_PREFIX = "/_action/"`. -/
def actionPathPre : String := "/_action/"

/-- The final response assembly of `handle_action_request`: 200 on a success
envelope, 400 otherwise, body the JSON-serialized `ActionResponse`. -/
def actionHttpOf (response : ActionResponse) : ActionHttpResponse :=
  { status := if response.success then 200 else 400
    contentType := "application/json"
    body := response }

/-- `RequestHandler::handle_action_request`. `parseJson` stands for
`serde_json::from_slice`; `bodyRead` is the result of collecting the request
body. A body-read failure is answered 400 with a plain error; an unparsable
body falls back to `serde_json::Value::Null` via `unwrap_or`. -/
def handleActionRequest (registry : ActionRegistry)
    (parseJson : String → Option Json) (path : String)
    (bodyRead : Except Unit String) : ActionHttpResponse :=
  let action_id := (stripPre actionPathPre path).getD ""
  match bodyRead with
  | .error _ =>
    { status := 400
      contentType := "application/json"
      body := ActionResponse.mkError (ActionError.mkNew "Failed to read request body") }
  | .ok bodyBytes =>
    let payload := (parseJson bodyBytes).getD Json.null
    actionHttpOf (registry.execute { action_id := action_id, payload := payload })

/-! ## Static file serving (`crates/next-server/src/handler.rs`,
`RequestHandler::try_serve_static`) -/

/-- The content-type table keyed on `Path::extension`. -/
def extToContentType : Option String → String
  | some "html" => "text/html; charset=utf-8"
  | some "js" => "application/javascript"
  | some "mjs" => "application/javascript"
  | some "wasm" => "application/wasm"
  | some "css" => "text/css"
  | some "json" => "application/json"
  | some "png" => "image/png"
  | some "jpg" => "image/jpeg"
  | some "jpeg" => "image/jpeg"
  | some "gif" => "image/gif"
  | some "svg" => "image/svg+xml"
  | some "ico" => "image/x-icon"
  | some "woff2" => "font/woff2"
  | some "woff" => "font/woff"
  | some "ttf" => "font/ttf"
  | _ => "application/octet-stream"

/-- Character-level model of `str::split(c)`: the pieces between occurrences
of the separator, with empty pieces preserved (`"" → [""]`, `"/a" → ["", "a"]`). -/
def splitOnChar (c : Char) : List Char → List (List Char)
  | [] => [[]]
  | x :: xs =>
    match splitOnChar c xs with
    | [] => [[]]
    | ys :: rest => if x = c then [] :: ys :: rest else (x :: ys) :: rest

/-- `str::split(c)` on a `String`. -/
def splitString (c : Char) (s : String) : List String :=
  (splitOnChar c s.data).map String.mk

/-- The final path component (`Path::file_name` of a `/`-joined path). -/
def lastComponent (p : String) : String :=
  ((splitString '/' p).getLast?).getD p

/-- `Path::extension`: the part of the file name after the last `.`; none
when the name has no `.` or is a dot-file with no further `.`. -/
def extensionOf (p : String) : Option String :=
  let name := lastComponent p
  match splitString '.' name with
  | [] => none
  | [_] => none
  | "" :: [_] => none
  | parts => parts.getLast?

/-- `str::trim_start_matches('/')`. -/
def trimLeadingSlashes (s : String) : String :=
  String.mk (s.data.dropWhile (· = '/'))

/-- `str::contains(c)` (character-level model). -/
def containsChar (s : String) (c : Char) : Bool :=
  s.data.contains c

/-- The headers and status `try_serve_static` puts on a served file. -/
structure StaticResponse where
  status : Nat
  contentType : String
  cacheControl : String

/-- The candidate file paths probed in order: under `public/`,
`.next/static/` and `pkg/` (`PathBuf::join` of a relative path). -/
def candidatePaths (clean : String) : List String :=
  ["public/" ++ clean, ".next/static/" ++ clean, "pkg/" ++ clean]

/-- The candidate loop of `try_serve_static`: serve the first candidate that
exists (the filesystem is modelled as the list `fs` of readable files). Every
served file gets `Cache-Control: public, max-age=31536000, immutable`. -/
def serveFirst (fs : List String) : List String → Option StaticResponse
  | [] => none
  | filePath :: rest =>
    if fs.contains filePath then
      some { status := 200
             contentType := extToContentType (extensionOf filePath)
             cacheControl := "public, max-age=31536000, immutable" }
    else serveFirst fs rest

/-- `RequestHandler::try_serve_static`. -/
def tryServeStatic (fs : List String) (path : String) : Option StaticResponse :=
  if path = "/" ∨ ¬ containsChar path '.' then none
  else serveFirst fs (candidatePaths (trimLeadingSlashes path))

/-! ### Concrete instances used by the witnesses -/

/-- Concrete decoder for a string-typed action input (`serde_json::from_value`
at type `String`). -/
def greetDecode : Json → Except String String := fun j =>
  match j with
  | .str s => .ok s
  | _ => .error "invalid type"

/-- Concrete handler: `name → "Hello, " + name`. -/
def greetHandler : String → ActionResult String := fun name =>
  .ok ("Hello, " ++ name)

/-- Concrete serializer for a string output. -/
def jsonOfString : String → Except String Json := fun s => .ok (.str s)

/-- A JSON parser that accepts nothing (every body is unparsable). -/
def noParse : String → Option Json := fun _ => none

/-- A JSON parser recognizing the body `"World"`. -/
def parseWorld : String → Option Json := fun s =>
  if s = "\"World\"" then some (.str "World") else none

/-! ## Route model (`crates/next-router/src/segment.rs`, `lib.rs`) -/

/-- `RouteSegment` from `segment.rs`. -/
inductive RouteSegment where
  | Static (s : String)
  | Dynamic (name : String)
  | CatchAll (name : String)
  | OptionalCatchAll (name : String)
deriving DecidableEq

/-- `str::starts_with` (character-level model). -/
def strStarts (s p : String) : Bool := p.data.isPrefixOf s.data

/-- `str::ends_with` (character-level model). -/
def strEnds (s p : String) : Bool := p.data.isSuffixOf s.data

/-- The byte slice `segment[a..len-b]` of an ASCII segment name. -/
def sliceName (s : String) (a b : Nat) : String :=
  String.mk ((s.data.drop a).take (s.data.length - a - b))

/-- `RouteSegment::parse`: split on `/`, drop empty segments, classify each
segment by its brackets. -/
def RouteSegment.parse (path : String) : List RouteSegment :=
  ((splitString '/' path).filter (· ≠ "")).map fun segment =>
    if strStarts segment "[[..." && strEnds segment "]]" then
      RouteSegment.OptionalCatchAll (sliceName segment 5 2)
    else if strStarts segment "[..." && strEnds segment "]" then
      RouteSegment.CatchAll (sliceName segment 4 1)
    else if strStarts segment "[" && strEnds segment "]" then
      RouteSegment.Dynamic (sliceName segment 1 1)
    else RouteSegment.Static segment

/-- `Route` from `next-router/src/lib.rs` (file paths as strings). -/
structure Route where
  path : String
  segments : List RouteSegment
  page_file : Option String
  layout_file : Option String
  loading_file : Option String
  error_file : Option String
  not_found_file : Option String
  route_file : Option String
deriving DecidableEq

/-- `Route::new`: parse the path into segments, no special files. -/
def Route.mkNew (path : String) : Route :=
  { path := path
    segments := RouteSegment.parse path
    page_file := none
    layout_file := none
    loading_file := none
    error_file := none
    not_found_file := none
    route_file := none }

/-! ## Route matcher (`crates/next-router/src/matcher.rs`) -/

/-- `MatchedRoute { route, params }` (the `HashMap` of params as an
association list with `HashMap::insert` replace semantics). -/
structure MatchedRoute where
  route : Route
  params : List (String × String)
deriving DecidableEq

/-- The path split of `match_path`:
`path.split('/').filter(|s| !s.is_empty())`. -/
def pathSegmentsOf (path : String) : List String :=
  (splitString '/' path).filter (· ≠ "")

/-- The segment loop of `RouteMatcher::try_match`, carrying `path_idx`,
`params` and `priority` (`u32`, far from overflow here). -/
def tryMatchGo (pathSegs : List String) :
    List RouteSegment → Nat → List (String × String) → Nat →
    Option (List (String × String) × Nat)
  | [], path_idx, params, priority =>
    if path_idx = pathSegs.length then some (params, priority) else none
  | seg :: rest, path_idx, params, priority =>
    match seg with
    | .Static expected =>
      if h : path_idx < pathSegs.length then
        if pathSegs[path_idx] = expected then
          tryMatchGo pathSegs rest (path_idx + 1) params (priority + 1000)
        else none
      else none
    | .Dynamic name =>
      if h : path_idx < pathSegs.length then
        tryMatchGo pathSegs rest (path_idx + 1)
          (insertAssoc params name pathSegs[path_idx]) (priority + 100)
      else none
    | .CatchAll name =>
      if path_idx < pathSegs.length then
        tryMatchGo pathSegs rest pathSegs.length
          (insertAssoc params name
            (String.intercalate "/" (pathSegs.drop path_idx))) (priority + 10)
      else none
    | .OptionalCatchAll name =>
      if path_idx < pathSegs.length then
        tryMatchGo pathSegs rest pathSegs.length
          (insertAssoc params name
            (String.intercalate "/" (pathSegs.drop path_idx))) (priority + 1)
      else
        tryMatchGo pathSegs rest pathSegs.length params (priority + 1)

/-- `RouteMatcher::try_match`. -/
def tryMatch (route : Route) (pathSegs : List String) :
    Option (List (String × String) × Nat) :=
  tryMatchGo pathSegs route.segments 0 [] 0

/-- One iteration of the best-match loop in `RouteMatcher::match_path`:
keep the current best on `priority <= best_priority`, otherwise replace. -/
def considerRoute (pathSegs : List String) (route : Route)
    (best : Option (MatchedRoute × Nat)) : Option (MatchedRoute × Nat) :=
  match tryMatch route pathSegs with
  | some (params, priority) =>
    match best with
    | some (b, best_priority) =>
      if priority ≤ best_priority then some (b, best_priority)
      else some (⟨route, params⟩, priority)
    | none => some (⟨route, params⟩, priority)
  | none => best

/-- The best-match fold of `RouteMatcher::match_path`. -/
def bestFold (pathSegs : List String) :
    List Route → Option (MatchedRoute × Nat) → Option (MatchedRoute × Nat)
  | [], best => best
  | route :: rest, best => bestFold pathSegs rest (considerRoute pathSegs route best)

/-- `RouteMatcher::match_path`. -/
def matchPath (routes : List Route) (path : String) : Option MatchedRoute :=
  (bestFold (pathSegmentsOf path) routes none).map (·.1)

/-- The number of non-optional route segments (each consumes at least one
path segment when matched). -/
def requiredCount : List RouteSegment → Nat
  | [] => 0
  | .Static _ :: rest => 1 + requiredCount rest
  | .Dynamic _ :: rest => 1 + requiredCount rest
  | .CatchAll _ :: rest => 1 + requiredCount rest
  | .OptionalCatchAll _ :: rest => requiredCount rest

/-- Whether the route has neither catch-all nor optional catch-all segments
(so every segment consumes exactly one path segment). -/
def plainSegments : List RouteSegment → Bool
  | [] => true
  | .Static _ :: rest => plainSegments rest
  | .Dynamic _ :: rest => plainSegments rest
  | .CatchAll _ :: _ => false
  | .OptionalCatchAll _ :: _ => false

/-- The route list of spec scenario 3. -/
def demoRoutes : List Route :=
  [Route.mkNew "/", Route.mkNew "/blog/[slug]",
   Route.mkNew "/blog/featured", Route.mkNew "/docs/[...path]"]

/-! ## Element tree (`crates/react-elements/src/{reactive,attributes,node}.rs`)
and HTML serializer (`crates/react-dom/src/render.rs`) -/

/-- `ReactiveValue<T>`: `Static(T)` or `Dynamic(Rc<RefCell<T>>)`; the dynamic
case holds the cell's current value. -/
inductive ReactiveValue (α : Type) where
  | Static (v : α)
  | Dynamic (cell : α)
deriving DecidableEq

/-- `ReactiveValue::get`: clone the current value. -/
def ReactiveValue.get {α : Type} : ReactiveValue α → α
  | .Static v => v
  | .Dynamic v => v

/-- `AttributeValue` from `attributes.rs` (constructors lowercased to avoid
clashing with the Lean core types). -/
inductive AttributeValue where
  | string (s : String)
  | bool (b : Bool)
  | reactiveString (r : ReactiveValue String)
  | reactiveBool (r : ReactiveValue Bool)
deriving DecidableEq

/-- `Attribute { name, value }`. -/
structure Attribute where
  name : String
  value : AttributeValue
deriving DecidableEq

/-- The `Node` variants consumed by `render_node` (`Element` flattened to its
fields `tag`, `attributes`, `children`, `event_handlers`; handler callbacks
are irrelevant to rendering and kept as names). -/
inductive Node where
  | Element (tag : String) (attributes : List Attribute) (children : List Node)
      (eventHandlers : List String)
  | Text (s : String)
  | ReactiveText (r : ReactiveValue String)
  | Fragment (children : List Node)

/-- Character-level model of `str::replace(char, &str)`: every occurrence of
the character is replaced by the replacement string. -/
def replaceCharL : List Char → Char → List Char → List Char
  | [], _, _ => []
  | ch :: rest, c, r => (if ch = c then r else [ch]) ++ replaceCharL rest c r

/-- `str::replace(char, &str)` on `String`. -/
def replaceChar (s : String) (c : Char) (r : String) : String :=
  String.mk (replaceCharL s.data c r.data)

/-- `escape_html`: replace `&`, `<`, `>` in that order. -/
def escapeHtml (s : String) : String :=
  replaceChar (replaceChar (replaceChar s '&' "&amp;") '<' "&lt;") '>' "&gt;"

/-- `escape_attr`: replace `&`, `"`, `<`, `>` in that order. -/
def escapeAttr (s : String) : String :=
  replaceChar (replaceChar (replaceChar (replaceChar s '&' "&amp;")
    '"' "&quot;") '<' "&lt;") '>' "&gt;"

/-- The enumerated void-element tag set of `is_void_element`. -/
def voidElements : List String :=
  ["area", "base", "br", "col", "embed", "hr", "img", "input", "link",
   "meta", "param", "source", "track", "wbr"]

/-- `is_void_element` (the `matches!` over the enumerated set). -/
def isVoidElement (tag : String) : Bool :=
  voidElements.contains tag

/-- The `filter_map` closure of `render_attributes`: a string attribute
renders as ` name="escaped"`, a boolean as the bare ` name` when true and
nothing when false; reactive values are read once and rendered as static. -/
def renderAttrOne (attr : Attribute) : Option String :=
  match attr.value with
  | .string s => some (" " ++ attr.name ++ "=\"" ++ escapeAttr s ++ "\"")
  | .bool b => if b then some (" " ++ attr.name) else none
  | .reactiveString r => some (" " ++ attr.name ++ "=\"" ++ escapeAttr r.get ++ "\"")
  | .reactiveBool r => if r.get then some (" " ++ attr.name) else none

/-- `render_attributes`: the filtered attribute strings joined. -/
def renderAttributes (attrs : List Attribute) : String :=
  String.join (attrs.filterMap renderAttrOne)

mutual

/-- `render_node` (with `render_element` inlined at the `Element` arm): a
void tag renders self-closing with no children, otherwise
`<tag attrs>children</tag>`; text and reactive text are HTML-escaped;
fragments concatenate their children. -/
def renderNode : Node → String
  | .Element tag attributes children _ =>
    let attrs := renderAttributes attributes
    let childrenStr := String.join (renderList children)
    if isVoidElement tag then "<" ++ tag ++ attrs ++ " />"
    else "<" ++ tag ++ attrs ++ ">" ++ childrenStr ++ "</" ++ tag ++ ">"
  | .Text text => escapeHtml text
  | .ReactiveText reactive => escapeHtml reactive.get
  | .Fragment children => String.join (renderList children)

/-- The `children.iter().map(render_node).collect()` of the renderer. -/
def renderList : List Node → List String
  | [] => []
  | n :: rest => renderNode n :: renderList rest

end

/-- `RenderOutput { html }`. -/
structure RenderOutput where
  html : String

/-- `render_to_string`. -/
def render_to_string (node : Node) : RenderOutput :=
  { html := renderNode node }

/-- The per-character specification of `escape_html`: `&`, `<`, `>` become
entities and every other character is unchanged. -/
def escHtmlChar (c : Char) : List Char :=
  if c = '&' then "&amp;".data
  else if c = '<' then "&lt;".data
  else if c = '>' then "&gt;".data
  else [c]

/-- The per-character specification of `escape_attr`: `&`, `"`, `<`, `>`
become entities and every other character is unchanged. -/
def escAttrChar (c : Char) : List Char :=
  if c = '&' then "&amp;".data
  else if c = '"' then "&quot;".data
  else if c = '<' then "&lt;".data
  else if c = '>' then "&gt;".data
  else [c]

/-- `escape_html` at the character-list level (its three replace stages). -/
def escHtmlL (l : List Char) : List Char :=
  replaceCharL (replaceCharL (replaceCharL l '&' "&amp;".data)
    '<' "&lt;".data) '>' "&gt;".data

/-- `escape_attr` at the character-list level (its four replace stages). -/
def escAttrL (l : List Char) : List Char :=
  replaceCharL (replaceCharL (replaceCharL (replaceCharL l '&' "&amp;".data)
    '"' "&quot;".data) '<' "&lt;".data) '>' "&gt;".data

/-! ## Reactivity runtime (`crates/react-core/src/{runtime,signal,effect,memo}.rs`)

The runtime is embedded as explicit state passing. Signal values are
integers (booleans encoded as 0/1). Effect bodies form the closed universe
`Body` of closures used in this development; cleanup closures are tags whose
run is recorded in an observation trace, and the scenario counters model the
plain `Rc<RefCell<usize>>` cells of the spec scenarios. The drain loop of
`flush_effects` and the recursion of `dispose_scope` take explicit fuel —
the Rust loop may diverge on adversarial bodies or malformed scope graphs,
and every theorem quantifies over or instantiates the fuel. -/

/-- `SignalInner { value, subscribers, version }`. -/
structure SignalInner where
  value : Int
  subscribers : List Nat
  version : Nat
deriving DecidableEq

/-- `Scope { effects, children, parent, disposed }`. -/
structure Scope where
  effects : List Nat
  children : List Nat
  parent : Option Nat
  disposed : Bool
deriving DecidableEq

/-- The default `Scope` used to totalize list indexing. -/
def Scope.dflt : Scope :=
  { effects := [], children := [], parent := none, disposed := false }

/-- The default `SignalInner` used to totalize list indexing. -/
def SignalInner.dflt : SignalInner :=
  { value := 0, subscribers := [], version := 0 }

/-- The subscriber insertion `inner.subscribers.push(effect_id)`. -/
def insertSub (inner : SignalInner) (e : Nat) : SignalInner :=
  { inner with subscribers := inner.subscribers ++ [e] }

/-- Observable events: an effect body execution, or a cleanup closure run. -/
inductive REvent where
  | ran (id : Nat)
  | cleanup (tag : Nat)
deriving DecidableEq

/-- Whether an event is a cleanup run. -/
def REvent.isCleanup : REvent → Bool
  | .cleanup _ => true
  | .ran _ => false

/-- The memo computations closed over by memo effect bodies: `parity src`
is `|| src.get() % 2 == 0` from spec scenario 2 (true as 1, false as 0). -/
inductive MemoFn where
  | parity (src : Nat)
deriving DecidableEq

/-- The closed universe of effect bodies, mirroring the closures passed to
`create_effect`: `counter sig ctr` is `move || { r.get(); count += 1 }`;
`cleanupLog sig ctr` reads `sig`, registers a cleanup tagged with the
current run number and bumps the run counter; `memoBody fn backing` is the
closure registered by `create_memo`. -/
inductive Body where
  | counter (sig ctr : Nat)
  | cleanupLog (sig ctr : Nat)
  | memoBody (fn : MemoFn) (backing : Nat)
deriving DecidableEq

/-- The signals a body reads (tracked) during execution. -/
def readsOf : Body → List Nat
  | .counter sig _ => [sig]
  | .cleanupLog sig _ => [sig]
  | .memoBody (.parity src) _ => [src]

/-- The thread-local `Runtime` state together with the signal heap, the
plain counter cells used by scenario bodies, and the observation trace. -/
structure RState where
  signals : List SignalInner
  effects : List (Option Body)
  effect_cleanups : List (List Nat)
  effect_disposed : List Bool
  current_effect : Option Nat
  pending_effects : List Nat
  is_batching : Bool
  scopes : List Scope
  current_scope : Option Nat
  counters : List Nat
  trace : List REvent

/-- `Runtime::new`: a root scope, everything else empty. -/
def RState.initial : RState :=
  { signals := [], effects := [], effect_cleanups := [], effect_disposed := []
    current_effect := none, pending_effects := [], is_batching := false
    scopes := [Scope.dflt], current_scope := some 0, counters := [], trace := [] }

/-- The subscriber list of signal `s`. -/
def subsAt (σ : RState) (s : Nat) : List Nat :=
  (σ.signals.getD s SignalInner.dflt).subscribers

/-- The effect roster of scope `i`. -/
def scopeEffects (σ : RState) (i : Nat) : List Nat :=
  (σ.scopes.getD i Scope.dflt).effects

/-- The children of scope `i`. -/
def scopeChildren (σ : RState) (i : Nat) : List Nat :=
  (σ.scopes.getD i Scope.dflt).children

/-- The disposed flag of scope `i`. -/
def scopeDisposed (σ : RState) (i : Nat) : Bool :=
  (σ.scopes.getD i Scope.dflt).disposed

/-- `Runtime::is_effect_disposed`: unknown ids count as disposed. -/
def isEffectDisposed (σ : RState) (id : Nat) : Bool :=
  σ.effect_disposed.getD id true

/-- `Runtime::schedule_effect`: skip disposed ids; de-duplicated FIFO push. -/
def scheduleEffect (σ : RState) (id : Nat) : RState :=
  if isEffectDisposed σ id then σ
  else if σ.pending_effects.contains id then σ
  else { σ with pending_effects := σ.pending_effects ++ [id] }

/-- The subscriber loop in `notify_subscribers`. -/
def scheduleList : RState → List Nat → RState
  | σ, [] => σ
  | σ, id :: rest => scheduleList (scheduleEffect σ id) rest

/-- The loop of `Runtime::pop_pending_effect` on the queue contents. -/
def popPendingList (disposed : List Bool) : List Nat → Option Nat × List Nat
  | [] => (none, [])
  | id :: rest =>
    if disposed.getD id true then popPendingList disposed rest
    else (some id, rest)

/-- `Runtime::pop_pending_effect`. -/
def popPendingEffect (σ : RState) : Option Nat × RState :=
  let (r, rest) := popPendingList σ.effect_disposed σ.pending_effects
  (r, { σ with pending_effects := rest })

/-- `ReadSignal::track`: while an effect is current, insert its id into the
signal's subscriber list unless already present. -/
def track (σ : RState) (s : Nat) : RState :=
  match σ.current_effect with
  | some effect_id =>
    let inner := σ.signals.getD s SignalInner.dflt
    if inner.subscribers.contains effect_id then σ
    else
      let inner2 := { inner with subscribers := inner.subscribers ++ [effect_id] }
      { σ with signals := σ.signals.set s inner2 }
  | none => σ

/-- `ReadSignal::get`: track, then clone the value. -/
def getSignal (σ : RState) (s : Nat) : Int × RState :=
  let σ1 := track σ s
  ((σ1.signals.getD s SignalInner.dflt).value, σ1)

/-- The borrow-and-assign part of `WriteSignal::set`: set the value and bump
the version. -/
def writeValue (σ : RState) (s : Nat) (v : Int) : RState :=
  let inner := σ.signals.getD s SignalInner.dflt
  let inner2 := { inner with value := v, version := inner.version + 1 }
  { σ with signals := σ.signals.set s inner2 }

/-- The borrow-and-mutate part of `WriteSignal::update`: apply the closure
to the value and bump the version — unconditionally, whether or not the
closure changed anything. -/
def applyUpdate (σ : RState) (s : Nat) (f : Int → Int) : RState :=
  let inner := σ.signals.getD s SignalInner.dflt
  let inner2 := { inner with value := f inner.value, version := inner.version + 1 }
  { σ with signals := σ.signals.set s inner2 }

/-- The `*count.borrow_mut() += 1` of the scenario bodies. -/
def bumpCounter (σ : RState) (ctr : Nat) : RState :=
  { σ with counters := σ.counters.set ctr (σ.counters.getD ctr 0 + 1) }

/-- `Runtime::add_cleanup`: push onto the current effect's cleanup list. -/
def addCleanup (σ : RState) (tag : Nat) : RState :=
  match σ.current_effect with
  | some effect_id =>
    if effect_id < σ.effect_cleanups.length then
      let cl2 := σ.effect_cleanups.getD effect_id [] ++ [tag]
      { σ with effect_cleanups := σ.effect_cleanups.set effect_id cl2 }
    else σ
  | none => σ

/-- Evaluate a memo computation: tracked reads, then the pure result. -/
def evalMemoFn (σ : RState) : MemoFn → Int × RState
  | .parity src =>
    let (v, σ1) := getSignal σ src
    (if v % 2 == 0 then 1 else 0, σ1)

/-- One fuel level of the mutually recursive runtime engine. The Rust
functions `notify_subscribers`, `WriteSignal::update`, `run_effect`, the
body closures, and `flush_effects` are mutually recursive through the
re-entrant drain; the engine is stratified by the drain depth `fuel` so that
it is structurally recursive (and hence computes by kernel reduction). -/
structure Engine where
  flush : RState → RState
  notify : RState → Nat → RState
  update : RState → Nat → (Int → Int) → RState
  runB : Body → RState → RState
  runE : Nat → RState → RState

/-- Build one engine level from its drain function. Each field is the
verbatim translation of the corresponding source function:
`notify` is `WriteSignal::notify_subscribers` (clone subscribers, schedule
each, drain unless batching); `update` is `WriteSignal::update` (mutate the
value, bump the version, notify — notification does not depend on what the
closure did); `runB` executes the closed universe of effect bodies, the memo
body being `create_memo`'s closure — recompute, then `write.update` with the
equality-gated assignment `if *current != new { *current = new }`; `runE` is
`run_effect` (save the previous current effect, set it to `id`, run the body
when the slot is live, recording `REvent.ran id`, restore). -/
def mkEngine (flush : RState → RState) : Engine :=
  let notify : RState → Nat → RState := fun σ s =>
    let σ1 := scheduleList σ (subsAt σ s)
    if σ1.is_batching then σ1 else flush σ1
  let update : RState → Nat → (Int → Int) → RState := fun σ s f =>
    notify (applyUpdate σ s f) s
  let runB : Body → RState → RState := fun b σ =>
    match b with
    | .counter sig ctr =>
      let (_, σ1) := getSignal σ sig
      bumpCounter σ1 ctr
    | .cleanupLog sig ctr =>
      let (_, σ1) := getSignal σ sig
      let n := σ1.counters.getD ctr 0
      let σ2 := addCleanup σ1 n
      bumpCounter σ2 ctr
    | .memoBody fn backing =>
      let (new_value, σ1) := evalMemoFn σ fn
      update σ1 backing
        (fun current => if current ≠ new_value then new_value else current)
  let runE : Nat → RState → RState := fun id σ =>
    let prev := σ.current_effect
    let σ1 := { σ with current_effect := some id }
    let σ2 :=
      match σ1.effects.getD id none with
      | some body => runB body { σ1 with trace := σ1.trace ++ [REvent.ran id] }
      | none => σ1
    { σ2 with current_effect := prev }
  { flush := flush, notify := notify, update := update, runB := runB, runE := runE }

/-- The engine at drain depth `fuel`: at depth 0 the drain gives up (returns
the state unchanged); at depth `fuel + 1` it is the `flush_effects` loop —
pop pending ids (skipping disposed ones) and run them with the depth-`fuel`
engine until the queue is empty. -/
def engineAt : Nat → Engine
  | 0 => mkEngine (fun σ => σ)
  | fuel + 1 =>
    let prev := engineAt fuel
    mkEngine (fun σ =>
      match popPendingEffect σ with
      | (some id, σ1) => prev.flush (prev.runE id σ1)
      | (none, σ1) => σ1)

/-- `flush_effects` at drain depth `fuel`. -/
def flushEffects (fuel : Nat) (σ : RState) : RState := (engineAt fuel).flush σ

/-- `WriteSignal::notify_subscribers`. -/
def notifySubscribers (fuel : Nat) (σ : RState) (s : Nat) : RState :=
  (engineAt fuel).notify σ s

/-- `WriteSignal::update`. -/
def updateSignal (fuel : Nat) (σ : RState) (s : Nat) (f : Int → Int) : RState :=
  (engineAt fuel).update σ s f

/-- Execution of an effect body. -/
def runBody (fuel : Nat) (b : Body) (σ : RState) : RState :=
  (engineAt fuel).runB b σ

/-- `run_effect`. -/
def runEffect (fuel : Nat) (id : Nat) (σ : RState) : RState :=
  (engineAt fuel).runE id σ

/-- `WriteSignal::set`: write the value, bump the version, notify — with no
equality test anywhere. -/
def setSignal (fuel : Nat) (σ : RState) (s : Nat) (v : Int) : RState :=
  notifySubscribers fuel (writeValue σ s v) s

/-- `Runtime::register_effect`: append the body, an empty cleanup list and a
clear disposed flag; enroll the id in the current scope's roster. -/
def registerEffect (σ : RState) (b : Body) : Nat × RState :=
  let id := σ.effects.length
  let σ1 := { σ with effects := σ.effects ++ [some b]
                   , effect_cleanups := σ.effect_cleanups ++ [[]]
                   , effect_disposed := σ.effect_disposed ++ [false] }
  let σ2 :=
    match σ1.current_scope with
    | some scope_id =>
      if scope_id < σ1.scopes.length then
        let sc := σ1.scopes.getD scope_id Scope.dflt
        let sc2 := { sc with effects := sc.effects ++ [id] }
        { σ1 with scopes := σ1.scopes.set scope_id sc2 }
      else σ1
    | none => σ1
  (id, σ2)

/-- `create_effect`: register, then run immediately. -/
def createEffect (fuel : Nat) (σ : RState) (b : Body) : RState :=
  let (id, σ1) := registerEffect σ b
  runEffect fuel id σ1

/-- `create_signal`: a fresh signal cell, returning its index. -/
def createSignal (σ : RState) (v : Int) : Nat × RState :=
  (σ.signals.length, { σ with signals := σ.signals ++ [⟨v, [], 0⟩] })

/-- A fresh plain counter cell (`Rc::new(RefCell::new(0))`). -/
def newCounter (σ : RState) : Nat × RState :=
  (σ.counters.length, { σ with counters := σ.counters ++ [0] })

/-- `create_memo`: compute `f()` once synchronously (outside any effect the
reads are untracked), store in a fresh backing signal, register the memo
effect. Returns the backing signal's index. -/
def createMemo (fuel : Nat) (σ : RState) (fn : MemoFn) : Nat × RState :=
  let (initial, σ1) := evalMemoFn σ fn
  let (backing, σ2) := createSignal σ1 initial
  (backing, createEffect fuel σ2 (.memoBody fn backing))

/-- `Runtime::run_cleanups`: drain the effect's cleanup list and run (log)
the closures in registration order. -/
def runCleanups (σ : RState) (effect_id : Nat) : RState :=
  if effect_id < σ.effect_cleanups.length then
    let cleanups := σ.effect_cleanups.getD effect_id []
    { σ with effect_cleanups := σ.effect_cleanups.set effect_id []
           , trace := σ.trace ++ cleanups.map REvent.cleanup }
  else σ

/-- `Runtime::dispose_effect`: run cleanups, mark disposed, clear the slot. -/
def disposeEffect (σ : RState) (effect_id : Nat) : RState :=
  if σ.effect_disposed.length ≤ effect_id then σ
  else
    let σ1 := runCleanups σ effect_id
    { σ1 with effect_disposed := σ1.effect_disposed.set effect_id true
            , effects := σ1.effects.set effect_id none }

/-- The `for effect_id in effects { dispose_effect }` loop. -/
def disposeEffectList : RState → List Nat → RState
  | σ, [] => σ
  | σ, e :: rest => disposeEffectList (disposeEffect σ e) rest

/-- `Runtime::create_scope`: push a fresh scope as a child of the current
scope and make it current. -/
def createScope (σ : RState) : Nat × RState :=
  let id := σ.scopes.length
  let parent := σ.current_scope
  let fresh : Scope :=
    { effects := [], children := [], parent := parent, disposed := false }
  let σ1 := { σ with scopes := σ.scopes ++ [fresh] }
  let σ2 :=
    match parent with
    | some parent_id =>
      if parent_id < σ1.scopes.length then
        let sc := σ1.scopes.getD parent_id Scope.dflt
        let sc2 := { sc with children := sc.children ++ [id] }
        { σ1 with scopes := σ1.scopes.set parent_id sc2 }
      else σ1
    | none => σ1
  (id, { σ2 with current_scope := some id })

/-- `Runtime::set_current_scope`. -/
def setCurrentScope (σ : RState) (scope : Option Nat) : Option Nat × RState :=
  (σ.current_scope, { σ with current_scope := scope })

/-- The `for child_id in children { dispose_scope }` loop, abstracted over
the scope-disposal function of the recursion level. -/
def disposeChildrenGo (dispose : RState → Nat → RState) :
    RState → List Nat → RState
  | σ, [] => σ
  | σ, c :: rest => disposeChildrenGo dispose (dispose σ c) rest

/-- A scope with its disposed flag set. -/
def flagScope (sc : Scope) : Scope := { sc with disposed := true }

/-- The final step of `dispose_scope`: flag the scope disposed. -/
def markScopeDisposed (σ : RState) (c : Nat) : RState :=
  { σ with scopes := σ.scopes.set c (flagScope (σ.scopes.getD c Scope.dflt)) }

/-- `Runtime::dispose_scope`: skip unknown or already-disposed scopes;
dispose children recursively, then the scope's own effects, then mark the
scope disposed. `fuel` bounds the recursion depth (the Rust recursion
terminates because child scope ids exceed their parent's). -/
def disposeScopeF : Nat → RState → Nat → RState
  | 0, σ, _ => σ
  | fuel + 1, σ, scope_id =>
    if σ.scopes.length ≤ scope_id ∨ scopeDisposed σ scope_id then σ
    else
      let σ1 := disposeChildrenGo (disposeScopeF fuel) σ (scopeChildren σ scope_id)
      let σ2 := disposeEffectList σ1 (scopeEffects σ1 scope_id)
      markScopeDisposed σ2 scope_id

/-- The child-disposal loop at a recursion level. -/
def disposeChildren (fuel : Nat) : RState → List Nat → RState :=
  disposeChildrenGo (disposeScopeF fuel)

/-! ### Scenario states (spec scenarios 1, 2, and the cleanup/dispose runs) -/

/-- Scenario 1 setup: `(r, w) := signal(0)`, a run counter, then
`effect(|| { r.get(); count += 1 })`. -/
def scn1_afterEffect : RState :=
  createEffect 99 (newCounter (createSignal RState.initial 0).2).2 (.counter 0 0)

/-- Scenario 1 after `w.set(1)`. -/
def scn1_afterSet1 : RState := setSignal 99 scn1_afterEffect 0 1

/-- Scenario 1 after a second `w.set(1)` of the equal value. -/
def scn1_afterSet2 : RState := setSignal 99 scn1_afterSet1 0 1

/-- Scenario 2 setup: `(r, w) := signal(1)`, `m := memo(|| r.get() % 2 == 0)`
(backing signal 1), a run counter, then `effect(|| { m.get(); count += 1 })`. -/
def scn2_afterEffect : RState :=
  createEffect 99
    (newCounter (createMemo 99 (createSignal RState.initial 1).2 (.parity 0)).2).2
    (.counter 1 0)

/-- Scenario 2 after `w.set(3)` (parity unchanged). -/
def scn2_afterSet3 : RState := setSignal 99 scn2_afterEffect 0 3

/-- Scenario 2 after `w.set(4)` (parity changed). -/
def scn2_afterSet4 : RState := setSignal 99 scn2_afterSet3 0 4

/-- Cleanup scenario: `(r, w) := signal(0)`, a run counter, then an effect
that reads `r`, registers a cleanup tagged with the run number, and bumps
the counter. -/
def scn4_afterEffect : RState :=
  createEffect 99 (newCounter (createSignal RState.initial 0).2).2 (.cleanupLog 0 0)

/-- Cleanup scenario after `w.set(1)` re-runs the effect. -/
def scn4_afterSet : RState := setSignal 99 scn4_afterEffect 0 1

/-- Cleanup scenario after disposing the root scope. -/
def scn4_afterDispose : RState := disposeScopeF 99 scn4_afterSet 0

/-- Dispose scenario: a child scope of the root holding an effect that reads
signal 0. -/
def scn3_afterEffect : RState :=
  createEffect 99 (newCounter (createSignal (createScope RState.initial).2 0).2).2
    (.counter 0 0)

/-- Dispose scenario after disposing the root scope (which recurses into the
child scope). -/
def scn3_afterDispose : RState := disposeScopeF 99 scn3_afterEffect 0

/-- A one-signal, one-effect state with the effect current, used to witness
the tracking theorems. -/
def trackDemo : RState :=
  { RState.initial with
      signals := [⟨0, [], 0⟩]
      effects := [some (.counter 0 0)]
      effect_cleanups := [[]]
      effect_disposed := [false]
      counters := [0]
      current_effect := some 0 }

/-! ### Invariants and relations used by the runtime theorems -/

/-- Subscriber lists only grow across a runtime step. -/
def subsMono (σ σ' : RState) : Prop :=
  ∀ t i, i ∈ subsAt σ t → i ∈ subsAt σ' t

/-- Every signal's subscriber list is duplicate-free. -/
def subsNodupInv (σ : RState) : Prop :=
  ∀ t, (subsAt σ t).Nodup

/-- A runtime step emits no cleanup events. -/
def cleanupTraceEq (σ σ' : RState) : Prop :=
  σ'.trace.filter REvent.isCleanup = σ.trace.filter REvent.isCleanup

/-- The preservation package for every function of the execution engine:
subscribers only grow, duplicate-freeness is preserved, and no cleanup
events are emitted. -/
def enginePres (σ σ' : RState) : Prop :=
  subsMono σ σ' ∧ (subsNodupInv σ → subsNodupInv σ') ∧ cleanupTraceEq σ σ'

/-- Scope `d` lies in the scope subtree rooted at `c` (via children lists). -/
inductive ScopeDesc (σ : RState) : Nat → Nat → Prop where
  | refl (c : Nat) : ScopeDesc σ c c
  | child (c c' d : Nat) : c' ∈ scopeChildren σ c → ScopeDesc σ c' d →
      ScopeDesc σ c d

/-- Well-formedness of the scope graph as `create_scope` builds it: every
child id exceeds its parent's and is in range, and every rostered effect id
is in range. -/
def ScopesWf (σ : RState) : Prop :=
  (∀ i, i < σ.scopes.length → ∀ c ∈ scopeChildren σ i,
    i < c ∧ c < σ.scopes.length) ∧
  (∀ i, i < σ.scopes.length → ∀ e ∈ scopeEffects σ i,
    e < σ.effect_disposed.length)

/-- A scope flagged disposed has its rostered effects disposed and its
children flagged — the invariant `dispose_scope` maintains. -/
def DisposedClosed (σ : RState) : Prop :=
  ∀ i, i < σ.scopes.length → scopeDisposed σ i = true →
    (∀ e ∈ scopeEffects σ i, isEffectDisposed σ e = true) ∧
    (∀ c ∈ scopeChildren σ i, scopeDisposed σ c = true)

/-- Disposal never changes the scope graph's shape: lengths, rosters and
children lists are untouched (only flags, slots, cleanups and the trace
move). -/
def ScopeShapeEq (σ σ' : RState) : Prop :=
  σ'.scopes.length = σ.scopes.length ∧
  (∀ i, scopeEffects σ' i = scopeEffects σ i) ∧
  (∀ i, scopeChildren σ' i = scopeChildren σ i) ∧
  σ'.effect_disposed.length = σ.effect_disposed.length

end NextRs

namespace NextRs

/-! ## Theorems for claims C8, C9, C10 -/

/-- Helper: `execute` answers either a success or an error envelope. -/
theorem execute_shape (r : ActionRegistry) (req : ActionRequest) :
    (∃ d, r.execute req = ActionResponse.mkSuccess d) ∨
    (∃ e, r.execute req = ActionResponse.mkError e) := by
  unfold ActionRegistry.execute
  cases hl : lookupAssoc r.handlers req.action_id with
  | none =>
    exact Or.inr ⟨ActionError.withCode
      ("Action '" ++ req.action_id ++ "' not found") "ACTION_NOT_FOUND", rfl⟩
  | some handler =>
    cases hh : handler req.payload with
    | ok d =>
      refine Or.inl ⟨d, ?_⟩
      show (match handler req.payload with
        | .ok data => ActionResponse.mkSuccess data
        | .error e => ActionResponse.mkError e) = ActionResponse.mkSuccess d
      rw [hh]
    | error e =>
      refine Or.inr ⟨e, ?_⟩
      show (match handler req.payload with
        | .ok data => ActionResponse.mkSuccess data
        | .error e => ActionResponse.mkError e) = ActionResponse.mkError e
      rw [hh]

/-- Helper: `execute` on a request whose id resolves to a handler. -/
theorem execute_lookup_some (r : ActionRegistry) (req : ActionRequest)
    (h : BoxedHandler) (hl : lookupAssoc r.handlers req.action_id = some h) :
    r.execute req = match h req.payload with
      | .ok d => ActionResponse.mkSuccess d
      | .error e => ActionResponse.mkError e := by
  unfold ActionRegistry.execute
  rw [hl]

/-- Helper: the wrapped handler on a decodable input whose handler and
serialization succeed. -/
theorem wrapHandler_ok {I O : Type} (decode : Json → Except String I)
    (handler : I → ActionResult O) (serialize : O → Except String Json)
    (v : Json) (i : I) (o : O) (j : Json) (hdec : decode v = .ok i)
    (hh : handler i = .ok o) (hs : serialize o = .ok j) :
    wrapHandler decode handler serialize v = .ok j := by
  simp only [wrapHandler, hdec, hh, hs]

/-- Helper: the wrapped handler on an undecodable input. -/
theorem wrapHandler_decode_err {I O : Type} (decode : Json → Except String I)
    (handler : I → ActionResult O) (serialize : O → Except String Json)
    (v : Json) (e : String) (hdec : decode v = .error e) :
    wrapHandler decode handler serialize v =
      .error (ActionError.withCode ("Invalid input: " ++ e) "INVALID_INPUT") := by
  simp only [wrapHandler, hdec]

/-- Helper: `handle_action_request` on a successfully read body is the
envelope-to-HTTP assembly of `execute` on the parsed (or null) payload. -/
theorem handleActionRequest_ok_body (registry : ActionRegistry)
    (parse : String → Option Json) (path body : String) :
    handleActionRequest registry parse path (.ok body) =
      actionHttpOf (registry.execute
        { action_id := (stripPre actionPathPre path).getD ""
          payload := (parse body).getD Json.null }) := rfl

/-- Helper: looking up a freshly inserted key finds the new value. -/
theorem lookupAssoc_insertAssoc {α : Type} (l : List (String × α)) (k : String)
    (v : α) : lookupAssoc (insertAssoc l k v) k = some v := by
  induction l with
  | nil => simp [insertAssoc, lookupAssoc]
  | cons hd tl ih =>
    obtain ⟨k', v'⟩ := hd
    by_cases h : k' = k
    · simp [insertAssoc, lookupAssoc, h]
    · simp [insertAssoc, lookupAssoc, h, ih]

/-- C8: action execution against the registry: an unregistered id yields an
`ACTION_NOT_FOUND` error; a registered id whose payload fails to decode
yields an `INVALID_INPUT` error; a succeeding handler yields HTTP 200 with
the `{success:true, data}` envelope; and every error case yields HTTP 400
with `{success:false, error:{message, code?}}`. -/
theorem C8_action_execute_cases :
    (∀ (r : ActionRegistry) (req : ActionRequest),
      lookupAssoc r.handlers req.action_id = none →
      r.execute req = ActionResponse.mkError (ActionError.withCode
        ("Action '" ++ req.action_id ++ "' not found") "ACTION_NOT_FOUND")) ∧
    (∀ {I O : Type} (r : ActionRegistry) (id : String)
      (decode : Json → Except String I) (handler : I → ActionResult O)
      (serialize : O → Except String Json) (payload : Json) (e : String),
      decode payload = .error e →
      (r.register id decode handler serialize).execute ⟨id, payload⟩ =
        ActionResponse.mkError
          (ActionError.withCode ("Invalid input: " ++ e) "INVALID_INPUT")) ∧
    (∀ {I O : Type} (r : ActionRegistry) (id : String)
      (decode : Json → Except String I) (handler : I → ActionResult O)
      (serialize : O → Except String Json) (payload : Json) (input : I)
      (out : O) (j : Json) (parse : String → Option Json) (path body : String),
      stripPre actionPathPre path = some id →
      decode payload = .ok input → handler input = .ok out →
      serialize out = .ok j → parse body = some payload →
      handleActionRequest (r.register id decode handler serialize) parse
          path (.ok body) =
        { status := 200, contentType := "application/json",
          body := ActionResponse.mkSuccess j }) ∧
    (∀ (reg : ActionRegistry) (parse : String → Option Json) (path : String)
      (bodyRead : Except Unit String),
      (handleActionRequest reg parse path bodyRead).body.success = false →
      (handleActionRequest reg parse path bodyRead).status = 400 ∧
      (handleActionRequest reg parse path bodyRead).body.error.isSome) := by
  refine ⟨?_, ?_, ?_, ?_⟩
  · intro r req h
    unfold ActionRegistry.execute
    rw [h]
  · intro I O r id decode handler serialize payload e hdec
    rw [execute_lookup_some _ _ (wrapHandler decode handler serialize)
      (lookupAssoc_insertAssoc r.handlers id _),
      wrapHandler_decode_err decode handler serialize payload e hdec]
  · intro I O r id decode handler serialize payload input out j parse path body
      hstrip hdec hhandler hser hparse
    rw [handleActionRequest_ok_body, hstrip, hparse]
    show actionHttpOf ((r.register id decode handler serialize).execute
      { action_id := id, payload := payload }) = _
    rw [execute_lookup_some _ _ (wrapHandler decode handler serialize)
      (lookupAssoc_insertAssoc r.handlers id _),
      wrapHandler_ok decode handler serialize payload input out j hdec hhandler hser]
    rfl
  · intro reg parse path bodyRead hfail
    cases bodyRead with
    | error _ => exact ⟨rfl, rfl⟩
    | ok body =>
      rw [handleActionRequest_ok_body] at hfail ⊢
      rcases execute_shape reg ⟨(stripPre actionPathPre path).getD "",
          (parse body).getD Json.null⟩ with ⟨d, hd⟩ | ⟨e, he⟩
      · rw [hd] at hfail
        exact absurd hfail (by simp [actionHttpOf, ActionResponse.mkSuccess])
      · rw [he]
        exact ⟨rfl, rfl⟩

/-- Witness for C8: the four cases at concrete inputs. -/
theorem C8_action_execute_cases_witness :
    (ActionRegistry.mkNew.execute ⟨"missing", Json.null⟩ =
      ActionResponse.mkError (ActionError.withCode
        ("Action '" ++ "missing" ++ "' not found") "ACTION_NOT_FOUND")) ∧
    ((ActionRegistry.mkNew.register "greet" greetDecode greetHandler
        jsonOfString).execute ⟨"greet", Json.null⟩ =
      ActionResponse.mkError (ActionError.withCode
        ("Invalid input: " ++ "invalid type") "INVALID_INPUT")) ∧
    (handleActionRequest (ActionRegistry.mkNew.register "greet" greetDecode
        greetHandler jsonOfString) parseWorld "/_action/greet"
        (.ok "\"World\"") =
      { status := 200, contentType := "application/json",
        body := ActionResponse.mkSuccess (.str ("Hello, " ++ "World")) }) ∧
    ((handleActionRequest ActionRegistry.mkNew noParse "/_action/x"
        (.ok "")).status = 400 ∧
      (handleActionRequest ActionRegistry.mkNew noParse "/_action/x"
        (.ok "")).body.error.isSome) := by
  refine ⟨?_, ?_, ?_, ?_⟩
  · exact C8_action_execute_cases.1 ActionRegistry.mkNew ⟨"missing", Json.null⟩ rfl
  · exact C8_action_execute_cases.2.1 ActionRegistry.mkNew "greet" greetDecode
      greetHandler jsonOfString Json.null "invalid type" rfl
  · exact C8_action_execute_cases.2.2.1 ActionRegistry.mkNew "greet" greetDecode
      greetHandler jsonOfString (.str "World") "World" ("Hello, " ++ "World")
      (.str ("Hello, " ++ "World")) parseWorld "/_action/greet" "\"World\""
      rfl rfl rfl rfl rfl
  · exact C8_action_execute_cases.2.2.2 ActionRegistry.mkNew noParse
      "/_action/x" (.ok "") rfl

/-- C10: when the body bytes are read successfully but are not valid JSON,
the dispatcher substitutes `Value::Null` as the payload and invokes the
registry with it; only a body-read failure yields the 400 body-read error
response. -/
theorem C10_unparsable_body_uses_null_payload :
    (∀ (reg : ActionRegistry) (parse : String → Option Json) (path body : String),
      parse body = none →
      handleActionRequest reg parse path (.ok body) =
        actionHttpOf (reg.execute
          { action_id := (stripPre actionPathPre path).getD ""
            payload := Json.null })) ∧
    (∀ (reg : ActionRegistry) (parse : String → Option Json) (path : String),
      handleActionRequest reg parse path (.error ()) =
        { status := 400, contentType := "application/json",
          body := ActionResponse.mkError
            (ActionError.mkNew "Failed to read request body") }) := by
  constructor
  · intro reg parse path body hparse
    rw [handleActionRequest_ok_body, hparse]
    rfl
  · intro reg parse path
    rfl

/-- Witness for C10 at a concrete unparsable body. -/
theorem C10_unparsable_body_witness :
    handleActionRequest (ActionRegistry.mkNew.register "greet" greetDecode
        greetHandler jsonOfString) noParse "/_action/greet" (.ok "not json") =
      actionHttpOf ((ActionRegistry.mkNew.register "greet" greetDecode
        greetHandler jsonOfString).execute
          { action_id := (stripPre actionPathPre "/_action/greet").getD ""
            payload := Json.null }) :=
  C10_unparsable_body_uses_null_payload.1 _ noParse "/_action/greet" "not json" rfl

/-- C9 counterexample: a static HTML file resolved under `public/` is served
with the long immutable cache-control, not `no-cache` — the claim that files
with an HTML content type get `Cache-Control: no-cache` fails on the code. -/
theorem C9_counterexample_html_immutable :
    tryServeStatic ["public/page.html"] "/page.html" =
      some { status := 200, contentType := "text/html; charset=utf-8",
             cacheControl := "public, max-age=31536000, immutable" } ∧
    "public, max-age=31536000, immutable" ≠ "no-cache" := by
  constructor
  · rfl
  · decide

/-- Helper: every file served by the candidate loop carries the immutable
cache-control and status 200, and its content type comes from the extension
table. -/
theorem serveFirst_some (fs : List String) (cands : List String)
    (r : StaticResponse) (h : serveFirst fs cands = some r) :
    r.status = 200 ∧ r.cacheControl = "public, max-age=31536000, immutable" ∧
    ∃ p ∈ cands, fs.contains p ∧ r.contentType = extToContentType (extensionOf p) := by
  induction cands with
  | nil => simp [serveFirst] at h
  | cons hd tl ih =>
    rw [serveFirst] at h
    by_cases hc : fs.contains hd
    · rw [if_pos hc] at h
      obtain rfl : _ = r := Option.some.inj h
      exact ⟨rfl, rfl, hd, by simp, hc, rfl⟩
    · rw [if_neg hc] at h
      obtain ⟨h1, h2, p, hp, hcp, hct⟩ := ih h
      exact ⟨h1, h2, p, by simp [hp], hcp, hct⟩

/-- C9 amended: every static-file response — HTML included — is served with
status 200 and `Cache-Control: public, max-age=31536000, immutable`; the
content type is derived from the extension of the resolved candidate path.
There is no `no-cache` branch for HTML. -/
theorem C9_amended_static_cache_control (fs : List String) (path : String)
    (r : StaticResponse) (h : tryServeStatic fs path = some r) :
    r.status = 200 ∧ r.cacheControl = "public, max-age=31536000, immutable" ∧
    ∃ p ∈ candidatePaths (trimLeadingSlashes path),
      fs.contains p ∧ r.contentType = extToContentType (extensionOf p) := by
  unfold tryServeStatic at h
  split at h
  · exact absurd h (by simp)
  · exact serveFirst_some fs _ r h

/-- Witness for the amended C9 at the counterexample input. -/
theorem C9_amended_witness :
    ({ status := 200, contentType := "text/html; charset=utf-8",
       cacheControl := "public, max-age=31536000, immutable" : StaticResponse }.status
        = 200) ∧
    ({ status := 200, contentType := "text/html; charset=utf-8",
       cacheControl := "public, max-age=31536000, immutable" : StaticResponse }.cacheControl
        = "public, max-age=31536000, immutable") ∧
    ∃ p ∈ candidatePaths (trimLeadingSlashes "/page.html"),
      List.contains ["public/page.html"] p ∧
      ({ status := 200, contentType := "text/html; charset=utf-8",
         cacheControl := "public, max-age=31536000, immutable" : StaticResponse }.contentType
           = extToContentType (extensionOf p)) :=
  C9_amended_static_cache_control ["public/page.html"] "/page.html" _ rfl

/-! ### Route matcher lemmas and C6 -/

/-- Helper: one loop iteration keeps a best entry, never below its priority. -/
theorem considerRoute_some_of_best (segs : List String) (r : Route)
    (b : MatchedRoute) (bp : Nat) :
    ∃ m pr, considerRoute segs r (some (b, bp)) = some (m, pr) ∧ bp ≤ pr := by
  unfold considerRoute
  cases h : tryMatch r segs with
  | none => exact ⟨b, bp, rfl, le_refl bp⟩
  | some pq =>
    obtain ⟨prms, q⟩ := pq
    by_cases hle : q ≤ bp
    · exact ⟨b, bp, by simp [hle], le_refl bp⟩
    · exact ⟨⟨r, prms⟩, q, by simp [hle], le_of_not_le hle⟩

/-- Helper: when the considered route matches, the loop's best entry after
the iteration exists and dominates the route's priority. -/
theorem considerRoute_some_of_match (segs : List String) (r : Route)
    (best : Option (MatchedRoute × Nat)) (prms : List (String × String))
    (q : Nat) (h : tryMatch r segs = some (prms, q)) :
    ∃ m pr, considerRoute segs r best = some (m, pr) ∧ q ≤ pr := by
  unfold considerRoute
  rw [h]
  match best with
  | none => exact ⟨⟨r, prms⟩, q, rfl, le_refl q⟩
  | some (b, bp) =>
    by_cases hle : q ≤ bp
    · exact ⟨b, bp, by simp [hle], hle⟩
    · exact ⟨⟨r, prms⟩, q, by simp [hle], le_refl q⟩

/-- Helper equation: a non-matching route leaves the best entry unchanged. -/
theorem considerRoute_eq_of_none (segs : List String) (r : Route)
    (best : Option (MatchedRoute × Nat)) (h : tryMatch r segs = none) :
    considerRoute segs r best = best := by
  unfold considerRoute
  rw [h]

/-- Helper equation: a matching route becomes the best entry when there was
none yet. -/
theorem considerRoute_eq_of_match_none (segs : List String) (r : Route)
    (prms : List (String × String)) (q : Nat)
    (h : tryMatch r segs = some (prms, q)) :
    considerRoute segs r none = some (⟨r, prms⟩, q) := by
  unfold considerRoute
  rw [h]

/-- Helper equation: a matching route with priority at most the current best
priority is skipped. -/
theorem considerRoute_eq_of_match_le (segs : List String) (r : Route)
    (b : MatchedRoute) (bp : Nat) (prms : List (String × String)) (q : Nat)
    (h : tryMatch r segs = some (prms, q)) (hle : q ≤ bp) :
    considerRoute segs r (some (b, bp)) = some (b, bp) := by
  unfold considerRoute
  rw [h]
  simp [hle]

/-- Helper equation: a matching route with strictly larger priority replaces
the current best entry. -/
theorem considerRoute_eq_of_match_gt (segs : List String) (r : Route)
    (b : MatchedRoute) (bp : Nat) (prms : List (String × String)) (q : Nat)
    (h : tryMatch r segs = some (prms, q)) (hgt : ¬ q ≤ bp) :
    considerRoute segs r (some (b, bp)) = some (⟨r, prms⟩, q) := by
  unfold considerRoute
  rw [h]
  simp [hgt]

/-- Helper: the best-match fold's final priority dominates the initial best
and every matching route in the list. -/
theorem bestFold_max (segs : List String) :
    ∀ (routes : List Route) (best : Option (MatchedRoute × Nat))
      (m : MatchedRoute) (pr : Nat), bestFold segs routes best = some (m, pr) →
      (∀ b bp, best = some (b, bp) → bp ≤ pr) ∧
      (∀ r ∈ routes, ∀ prms q, tryMatch r segs = some (prms, q) → q ≤ pr) := by
  intro routes
  induction routes with
  | nil =>
    intro best m pr h
    refine ⟨?_, by simp⟩
    intro b bp hb
    rw [hb] at h
    obtain ⟨h1, h2⟩ := Prod.mk.injEq .. ▸ Option.some.inj h
    omega
  | cons r rest ih =>
    intro best m pr h
    rw [bestFold] at h
    obtain ⟨ihA, ihB⟩ := ih (considerRoute segs r best) m pr h
    constructor
    · intro b bp hb
      subst hb
      obtain ⟨m1, q1, heq, hle⟩ := considerRoute_some_of_best segs r b bp
      exact le_trans hle (ihA m1 q1 heq)
    · intro r' hr' prms q hq
      rcases List.mem_cons.mp hr' with rfl | hmem
      · obtain ⟨m1, q1, heq, hle⟩ := considerRoute_some_of_match segs r' best prms q hq
        exact le_trans hle (ihA m1 q1 heq)
      · exact ihB r' hmem prms q hq

/-- Helper: the best-match fold returns the earliest route attaining the
final priority: every route strictly before it in source order matches only
with strictly smaller priority. -/
theorem bestFold_first (segs : List String) :
    ∀ (routes : List Route) (best : Option (MatchedRoute × Nat))
      (m : MatchedRoute) (pr : Nat), bestFold segs routes best = some (m, pr) →
      best = some (m, pr) ∨
      ∃ pre post, routes = pre ++ m.route :: post ∧
        tryMatch m.route segs = some (m.params, pr) ∧
        (∀ b bp, best = some (b, bp) → bp < pr) ∧
        (∀ r ∈ pre, ∀ prms q, tryMatch r segs = some (prms, q) → q < pr) := by
  intro routes
  induction routes with
  | nil => intro best m pr h; exact Or.inl h
  | cons r rest ih =>
    intro best m pr h
    rw [bestFold] at h
    rcases ih (considerRoute segs r best) m pr h with hkeep | hfound
    · -- the tail kept the entry produced by this iteration
      cases htm : tryMatch r segs with
      | none =>
        rw [considerRoute_eq_of_none segs r best htm] at hkeep
        exact Or.inl hkeep
      | some pq =>
        obtain ⟨prms, q⟩ := pq
        cases best with
        | none =>
          rw [considerRoute_eq_of_match_none segs r prms q htm] at hkeep
          obtain ⟨hm, hpr⟩ := Prod.mk.injEq .. ▸ Option.some.inj hkeep
          refine Or.inr ⟨[], rest, ?_, ?_, ?_, ?_⟩
          · rw [← hm]; rfl
          · rw [← hm, ← hpr]; exact htm
          · intro b bp hb; cases hb
          · intro r' hr'; cases hr'
        | some bpair =>
          obtain ⟨b, bp⟩ := bpair
          by_cases hle : q ≤ bp
          · rw [considerRoute_eq_of_match_le segs r b bp prms q htm hle] at hkeep
            exact Or.inl hkeep
          · rw [considerRoute_eq_of_match_gt segs r b bp prms q htm hle] at hkeep
            obtain ⟨hm, hpr⟩ := Prod.mk.injEq .. ▸ Option.some.inj hkeep
            refine Or.inr ⟨[], rest, ?_, ?_, ?_, ?_⟩
            · rw [← hm]; rfl
            · rw [← hm, ← hpr]; exact htm
            · intro b' bp' hb'
              obtain ⟨h1, h2⟩ := Prod.mk.injEq .. ▸ Option.some.inj hb'
              omega
            · intro r' hr'; cases hr'
    · obtain ⟨pre, post, hsplit, htm, hbest, hpre⟩ := hfound
      refine Or.inr ⟨r :: pre, post, ?_, htm, ?_, ?_⟩
      · rw [List.cons_append, hsplit]
      · intro b bp hb
        subst hb
        obtain ⟨m1, q1, heq, hle⟩ := considerRoute_some_of_best segs r b bp
        exact lt_of_le_of_lt hle (hbest m1 q1 heq)
      · intro r' hr' prms q hq
        rcases List.mem_cons.mp hr' with rfl | hmem
        · obtain ⟨m1, q1, heq, hle⟩ := considerRoute_some_of_match segs r' _ prms q hq
          exact lt_of_le_of_lt hle (hbest m1 q1 heq)
        · exact hpre r' hmem prms q hq

/-- Helper: a successful segment loop consumed at least one path segment for
every non-optional route segment. -/
theorem tryMatchGo_required (segs : List String) :
    ∀ (rsegs : List RouteSegment) (idx : Nat) (params : List (String × String))
      (prio : Nat) (prms : List (String × String)) (pr : Nat),
      idx ≤ segs.length → tryMatchGo segs rsegs idx params prio = some (prms, pr) →
      idx + requiredCount rsegs ≤ segs.length := by
  intro rsegs
  induction rsegs with
  | nil =>
    intro idx params prio prms pr hidx h
    rw [tryMatchGo] at h
    split at h
    · simp only [requiredCount]; omega
    · cases h
  | cons seg rest ih =>
    intro idx params prio prms pr hidx h
    cases seg with
    | Static expected =>
      rw [tryMatchGo] at h
      split at h
      · split at h
        · have := ih (idx + 1) params (prio + 1000) prms pr (by omega) h
          simp only [requiredCount]; omega
        · cases h
      · cases h
    | Dynamic name =>
      rw [tryMatchGo] at h
      split at h
      · have := ih (idx + 1) _ (prio + 100) prms pr (by omega) h
        simp only [requiredCount]; omega
      · cases h
    | CatchAll name =>
      rw [tryMatchGo] at h
      split at h
      · have := ih segs.length _ (prio + 10) prms pr (le_refl _) h
        simp only [requiredCount]; omega
      · cases h
    | OptionalCatchAll name =>
      rw [tryMatchGo] at h
      split at h
      · have := ih segs.length _ (prio + 1) prms pr (le_refl _) h
        simp only [requiredCount]; omega
      · have := ih segs.length params (prio + 1) prms pr (le_refl _) h
        simp only [requiredCount]; omega

/-- Helper: with only static and dynamic segments, a successful segment loop
consumes the path exactly — nothing left over. -/
theorem tryMatchGo_plain_exact (segs : List String) :
    ∀ (rsegs : List RouteSegment) (idx : Nat) (params : List (String × String))
      (prio : Nat) (prms : List (String × String)) (pr : Nat),
      plainSegments rsegs = true →
      tryMatchGo segs rsegs idx params prio = some (prms, pr) →
      idx + rsegs.length = segs.length := by
  intro rsegs
  induction rsegs with
  | nil =>
    intro idx params prio prms pr hplain h
    rw [tryMatchGo] at h
    split at h
    · simp only [List.length_nil]; omega
    · cases h
  | cons seg rest ih =>
    intro idx params prio prms pr hplain h
    cases seg with
    | Static expected =>
      rw [tryMatchGo] at h
      split at h
      · split at h
        · have := ih (idx + 1) params (prio + 1000) prms pr hplain h
          simp only [List.length_cons]; omega
        · cases h
      · cases h
    | Dynamic name =>
      rw [tryMatchGo] at h
      split at h
      · have := ih (idx + 1) _ (prio + 100) prms pr hplain h
        simp only [List.length_cons]; omega
      · cases h
    | CatchAll name => simp [plainSegments] at hplain
    | OptionalCatchAll name => simp [plainSegments] at hplain

/-- C6: `match_path` returns a route only when the route's segments fully
consume the path (every non-optional segment consumes a path segment, and
plain static/dynamic routes consume the path exactly); among all matching
routes it returns one of maximum priority (Static 1000, Dynamic 100,
CatchAll 10, OptionalCatchAll 1, summed by `try_match`); on a tie the
earliest route in source order wins (every strictly earlier route matches
only with strictly smaller priority); and on the scenario routes,
`/blog/featured` hits the static route, `/blog/hello` hits `/blog/[slug]`
with `slug = "hello"`, and `/docs/a/b/c` hits `/docs/[...path]` with
`path = "a/b/c"`. -/
theorem C6_match_path_priority :
    (∀ (routes : List Route) (path : String) (m : MatchedRoute),
      matchPath routes path = some m →
      ∃ pr, tryMatch m.route (pathSegmentsOf path) = some (m.params, pr) ∧
        (∀ r ∈ routes, ∀ prms q,
          tryMatch r (pathSegmentsOf path) = some (prms, q) → q ≤ pr) ∧
        ∃ pre post, routes = pre ++ m.route :: post ∧
          (∀ r ∈ pre, ∀ prms q,
            tryMatch r (pathSegmentsOf path) = some (prms, q) → q < pr)) ∧
    (∀ (route : Route) (segs : List String) (prms : List (String × String))
      (pr : Nat), tryMatch route segs = some (prms, pr) →
      requiredCount route.segments ≤ segs.length ∧
      (plainSegments route.segments = true →
        segs.length = route.segments.length)) ∧
    (matchPath demoRoutes "/blog/featured" =
      some ⟨Route.mkNew "/blog/featured", []⟩) ∧
    ((matchPath demoRoutes "/blog/hello").map
        (fun mr => (mr.route.path, lookupAssoc mr.params "slug")) =
      some ("/blog/[slug]", some "hello")) ∧
    ((matchPath demoRoutes "/docs/a/b/c").map
        (fun mr => (mr.route.path, lookupAssoc mr.params "path")) =
      some ("/docs/[...path]", some "a/b/c")) := by
  refine ⟨?_, ?_, by decide, by decide, by decide⟩
  · intro routes path m h
    unfold matchPath at h
    obtain ⟨⟨m', pr⟩, hfold, hm⟩ := Option.map_eq_some'.mp h
    subst hm
    refine ⟨pr, ?_, ?_, ?_⟩
    · rcases bestFold_first (pathSegmentsOf path) routes none m' pr hfold with hnone | hr
      · cases hnone
      · obtain ⟨pre, post, hsplit, htm, hb, hpre⟩ := hr
        exact htm
    · exact (bestFold_max (pathSegmentsOf path) routes none m' pr hfold).2
    · rcases bestFold_first (pathSegmentsOf path) routes none m' pr hfold with hnone | hr
      · cases hnone
      · obtain ⟨pre, post, hsplit, htm, hb, hpre⟩ := hr
        exact ⟨pre, post, hsplit, hpre⟩
  · intro route segs prms pr h
    constructor
    · have := tryMatchGo_required segs route.segments 0 [] 0 prms pr
        (Nat.zero_le _) h
      omega
    · intro hplain
      have := tryMatchGo_plain_exact segs route.segments 0 [] 0 prms pr hplain h
      omega

/-- Witness for C6 at the scenario routes and `/blog/hello`. -/
theorem C6_match_path_witness :
    ∃ pr, tryMatch (Route.mkNew "/blog/[slug]")
        (pathSegmentsOf "/blog/hello") =
        some ([("slug", "hello")], pr) ∧
      (∀ r ∈ demoRoutes, ∀ prms q,
        tryMatch r (pathSegmentsOf "/blog/hello") = some (prms, q) → q ≤ pr) ∧
      ∃ pre post, demoRoutes = pre ++ Route.mkNew "/blog/[slug]" :: post ∧
        (∀ r ∈ pre, ∀ prms q,
          tryMatch r (pathSegmentsOf "/blog/hello") = some (prms, q) → q < pr) :=
  C6_match_path_priority.1 demoRoutes "/blog/hello"
    ⟨Route.mkNew "/blog/[slug]", [("slug", "hello")]⟩ (by decide)

/-! ### HTML serializer lemmas and C7 -/

/-- Helper: character replacement distributes over concatenation. -/
theorem replaceCharL_append (a b : List Char) (c : Char) (r : List Char) :
    replaceCharL (a ++ b) c r = replaceCharL a c r ++ replaceCharL b c r := by
  induction a with
  | nil => rfl
  | cons x xs ih =>
    show (if x = c then r else [x]) ++ replaceCharL (xs ++ b) c r =
      ((if x = c then r else [x]) ++ replaceCharL xs c r) ++ replaceCharL b c r
    rw [ih, List.append_assoc]

/-- Helper: the three replace stages of `escape_html` distribute over
concatenation. -/
theorem escHtmlL_append (a b : List Char) :
    escHtmlL (a ++ b) = escHtmlL a ++ escHtmlL b := by
  simp only [escHtmlL, replaceCharL_append]

/-- Helper: the four replace stages of `escape_attr` distribute over
concatenation. -/
theorem escAttrL_append (a b : List Char) :
    escAttrL (a ++ b) = escAttrL a ++ escAttrL b := by
  simp only [escAttrL, replaceCharL_append]

/-- Helper: on one character, `escape_html` produces exactly the entity
table's output. -/
theorem escHtmlL_single (c : Char) : escHtmlL [c] = escHtmlChar c := by
  by_cases h1 : c = '&'
  · subst h1; decide
  by_cases h2 : c = '<'
  · subst h2; decide
  by_cases h3 : c = '>'
  · subst h3; decide
  simp [escHtmlL, replaceCharL, escHtmlChar, h1, h2, h3]

/-- Helper: on one character, `escape_attr` produces exactly the entity
table's output. -/
theorem escAttrL_single (c : Char) : escAttrL [c] = escAttrChar c := by
  by_cases h1 : c = '&'
  · subst h1; decide
  by_cases h2 : c = '"'
  · subst h2; decide
  by_cases h3 : c = '<'
  · subst h3; decide
  by_cases h4 : c = '>'
  · subst h4; decide
  simp [escAttrL, replaceCharL, escAttrChar, h1, h2, h3, h4]

/-- Helper: `escape_html` is the per-character entity map. -/
theorem escHtmlL_eq (l : List Char) :
    escHtmlL l = (l.map escHtmlChar).flatten := by
  induction l with
  | nil => rfl
  | cons c rest ih =>
    have h1 : escHtmlL (c :: rest) = escHtmlL [c] ++ escHtmlL rest := by
      rw [show c :: rest = [c] ++ rest from rfl, escHtmlL_append]
    rw [h1, escHtmlL_single, ih]
    simp [List.flatten]

/-- Helper: `escape_attr` is the per-character entity map. -/
theorem escAttrL_eq (l : List Char) :
    escAttrL l = (l.map escAttrChar).flatten := by
  induction l with
  | nil => rfl
  | cons c rest ih =>
    have h1 : escAttrL (c :: rest) = escAttrL [c] ++ escAttrL rest := by
      rw [show c :: rest = [c] ++ rest from rfl, escAttrL_append]
    rw [h1, escAttrL_single, ih]
    simp [List.flatten]

/-- C7: void-set elements render self-closing with no children; string
attributes render as `name="v"` with `&`, `"`, `<`, `>` escaped in `v`;
boolean attributes render as the bare name when true and vanish when false;
text nodes have `&`, `<`, `>` replaced by entities (the escape functions are
exactly the per-character entity maps); and the scenario-4 examples render
as specified. -/
theorem C7_render_void_attrs_escape :
    (∀ (tag : String) (attrs : List Attribute) (children : List Node)
      (eh : List String), isVoidElement tag = true →
      renderNode (.Element tag attrs children eh) =
        "<" ++ tag ++ renderAttributes attrs ++ " />") ∧
    (∀ tag : String, isVoidElement tag = true ↔ tag ∈ voidElements) ∧
    (∀ (name v : String), renderAttrOne ⟨name, .string v⟩ =
      some (" " ++ name ++ "=\"" ++ escapeAttr v ++ "\"")) ∧
    (∀ name : String, renderAttrOne ⟨name, .bool true⟩ = some (" " ++ name) ∧
      renderAttrOne ⟨name, .bool false⟩ = none) ∧
    (∀ s : String, renderNode (.Text s) = escapeHtml s ∧
      escapeHtml s = String.mk ((s.data.map escHtmlChar).flatten)) ∧
    (∀ s : String, escapeAttr s = String.mk ((s.data.map escAttrChar).flatten)) ∧
    (renderNode (.Element "input" [⟨"type", .string "text"⟩] [] []) =
      "<input type=\"text\" />") ∧
    (renderNode (.Element "div" [] [.Text "<x>"] []) =
      "<div>&lt;x&gt;</div>") ∧
    (renderNode (.Element "input" [⟨"disabled", .bool true⟩] [] []) =
      "<input disabled />") ∧
    (renderNode (.Element "input" [⟨"disabled", .bool false⟩] [] []) =
      "<input />") := by
  refine ⟨?_, ?_, ?_, ?_, ?_, ?_, by decide, by decide, by decide, by decide⟩
  · intro tag attrs children eh hvoid
    simp [renderNode, hvoid]
  · intro tag
    simp [isVoidElement, List.contains_iff_exists_mem_beq, beq_iff_eq]
  · intro name v
    rfl
  · intro name
    exact ⟨rfl, rfl⟩
  · intro s
    refine ⟨rfl, ?_⟩
    show String.mk (escHtmlL s.data) = _
    rw [escHtmlL_eq]
  · intro s
    show String.mk (escAttrL s.data) = _
    rw [escAttrL_eq]

/-- Witness for C7 at the void tag `input`. -/
theorem C7_render_void_witness :
    renderNode (.Element "input" [] [] []) =
      "<" ++ "input" ++ renderAttributes [] ++ " />" :=
  C7_render_void_attrs_escape.1 "input" [] [] [] rfl

/-! ### Runtime lemmas -/

/-- Helper: reading a just-written list slot. -/
theorem getD_set_self {α : Type} (l : List α) (n : Nat) (a d : α)
    (h : n < l.length) : (l.set n a).getD n d = a := by
  induction l generalizing n with
  | nil => simp at h
  | cons x xs ih =>
    cases n with
    | zero => rfl
    | succ n => exact ih n (by simpa using h)

/-- Helper: reading another slot after a write. -/
theorem getD_set_ne {α : Type} (l : List α) (n m : Nat) (a d : α)
    (h : n ≠ m) : (l.set n a).getD m d = l.getD m d := by
  induction l generalizing n m with
  | nil => rfl
  | cons x xs ih =>
    cases n with
    | zero =>
      cases m with
      | zero => exact absurd rfl h
      | succ m => rfl
    | succ n =>
      cases m with
      | zero => rfl
      | succ m => exact ih n m (fun hc => h (by rw [hc]))

/-- Helper: writing out of range is a no-op. -/
theorem set_oob {α : Type} (l : List α) (n : Nat) (a : α)
    (h : l.length ≤ n) : l.set n a = l := by
  induction l generalizing n with
  | nil => rfl
  | cons x xs ih =>
    cases n with
    | zero => simp at h
    | succ n => simp only [List.set]; rw [ih n (by simpa using h)]

/-- Helper: a plain write leaves every subscriber list unchanged. -/
theorem subsAt_writeValue (σ : RState) (s : Nat) (v : Int) (t : Nat) :
    subsAt (writeValue σ s v) t = subsAt σ t := by
  simp only [subsAt, writeValue]
  by_cases hst : s = t
  · subst hst
    by_cases hs : s < σ.signals.length
    · rw [getD_set_self _ _ _ _ hs]
    · rw [set_oob σ.signals s _ (Nat.le_of_not_lt hs)]
  · rw [getD_set_ne _ _ _ _ _ hst]

/-- Helper: an update write leaves every subscriber list unchanged. -/
theorem subsAt_applyUpdate (σ : RState) (s : Nat) (f : Int → Int) (t : Nat) :
    subsAt (applyUpdate σ s f) t = subsAt σ t := by
  simp only [subsAt, applyUpdate]
  by_cases hst : s = t
  · subst hst
    by_cases hs : s < σ.signals.length
    · rw [getD_set_self _ _ _ _ hs]
    · rw [set_oob σ.signals s _ (Nat.le_of_not_lt hs)]
  · rw [getD_set_ne _ _ _ _ _ hst]

/-- Helper: scheduling never changes the disposed flags. -/
theorem scheduleEffect_disposed (σ : RState) (id : Nat) :
    (scheduleEffect σ id).effect_disposed = σ.effect_disposed := by
  unfold scheduleEffect
  split
  · rfl
  split
  · rfl
  · rfl

/-- Helper: scheduling keeps every already-pending id pending. -/
theorem scheduleEffect_pending_mono (σ : RState) (id x : Nat)
    (h : x ∈ σ.pending_effects) : x ∈ (scheduleEffect σ id).pending_effects := by
  unfold scheduleEffect
  split
  · exact h
  split
  · exact h
  · simp only [List.mem_append]
    exact Or.inl h

/-- Helper: the subscriber loop keeps every already-pending id pending and
never changes the disposed flags. -/
theorem scheduleList_pending_mono (l : List Nat) :
    ∀ (σ : RState) (x : Nat), x ∈ σ.pending_effects →
      x ∈ (scheduleList σ l).pending_effects := by
  induction l with
  | nil => intro σ x h; exact h
  | cons id rest ih =>
    intro σ x h
    exact ih (scheduleEffect σ id) x (scheduleEffect_pending_mono σ id x h)

/-- Helper: the subscriber loop never changes the disposed flags. -/
theorem scheduleList_disposed (l : List Nat) :
    ∀ σ : RState, (scheduleList σ l).effect_disposed = σ.effect_disposed := by
  induction l with
  | nil => intro σ; rfl
  | cons id rest ih =>
    intro σ
    rw [show scheduleList σ (id :: rest) = scheduleList (scheduleEffect σ id) rest
      from rfl, ih, scheduleEffect_disposed]

/-- Helper: after the subscriber loop, every non-disposed id of the list is
pending. -/
theorem scheduleList_mem (l : List Nat) :
    ∀ (σ : RState) (id : Nat), id ∈ l → isEffectDisposed σ id = false →
      id ∈ (scheduleList σ l).pending_effects := by
  induction l with
  | nil => intro σ id h; cases h
  | cons hd rest ih =>
    intro σ id hmem hdisp
    rcases List.mem_cons.mp hmem with rfl | hmem'
    · refine scheduleList_pending_mono rest (scheduleEffect σ id) id ?_
      unfold scheduleEffect
      rw [hdisp]
      simp only [Bool.false_eq_true, if_false]
      split
      · next hin => simpa using hin
      · simp
    · refine ih (scheduleEffect σ hd) id hmem' ?_
      unfold isEffectDisposed at hdisp ⊢
      rw [scheduleEffect_disposed]
      exact hdisp

/-- Helper: the pending queue produced by the subscriber loop depends only
on the initial queue and the disposed flags. -/
theorem scheduleList_congr (l : List Nat) :
    ∀ (σ1 σ2 : RState), σ1.pending_effects = σ2.pending_effects →
      σ1.effect_disposed = σ2.effect_disposed →
      (scheduleList σ1 l).pending_effects = (scheduleList σ2 l).pending_effects := by
  induction l with
  | nil => intro σ1 σ2 hp _; exact hp
  | cons id rest ih =>
    intro σ1 σ2 hp hd
    refine ih (scheduleEffect σ1 id) (scheduleEffect σ2 id) ?_ ?_
    · unfold scheduleEffect isEffectDisposed
      rw [hp, hd]
      split
      · exact hp
      split
      · exact hp
      · rfl
    · rw [scheduleEffect_disposed, scheduleEffect_disposed, hd]

/-- C1 evaluated at the failing input (spec scenario 2): after the initial
run the subscriber count is 1; `w.set(3)` leaves the memo's parity value
unchanged at 0 (odd), yet the subscriber effect re-runs and the count
becomes 2, because `create_memo`'s effect calls `WriteSignal::update`, which
bumps the version and notifies subscribers unconditionally — the equality
gate only guards the value assignment. -/
theorem C1_memo_equal_value_still_propagates :
    scn2_afterEffect.counters = [1] ∧
    (scn2_afterEffect.signals.getD 1 SignalInner.dflt).value = 0 ∧
    scn2_afterSet3.counters = [2] ∧
    (scn2_afterSet3.signals.getD 1 SignalInner.dflt).value = 0 ∧
    scn2_afterSet4.counters = [3] ∧
    (scn2_afterSet4.signals.getD 1 SignalInner.dflt).value = 1 := by
  refine ⟨by decide, by decide, by decide, by decide, by decide, by decide⟩

/-- C5: a plain signal write notifies unconditionally — after the scheduling
phase of `set`, every non-disposed subscriber is pending; the resulting
queue does not depend on the written value at all (no equality gate); and in
spec scenario 1 the subscribed effect re-runs on every `set`, including a
`set` of the equal value (counts 1, 2, 3). -/
theorem C5_set_notifies_unconditionally :
    (∀ (σ : RState) (s : Nat) (v : Int) (id : Nat),
      id ∈ subsAt σ s → isEffectDisposed σ id = false →
      id ∈ (scheduleList (writeValue σ s v)
        (subsAt (writeValue σ s v) s)).pending_effects) ∧
    (∀ (σ : RState) (s : Nat) (v w : Int),
      (scheduleList (writeValue σ s v)
        (subsAt (writeValue σ s v) s)).pending_effects =
      (scheduleList (writeValue σ s w)
        (subsAt (writeValue σ s w) s)).pending_effects) ∧
    (scn1_afterEffect.counters = [1] ∧ scn1_afterSet1.counters = [2] ∧
      scn1_afterSet2.counters = [3]) := by
  refine ⟨?_, ?_, by decide, by decide, by decide⟩
  · intro σ s v id hmem hdisp
    rw [subsAt_writeValue]
    exact scheduleList_mem (subsAt σ s) (writeValue σ s v) id hmem hdisp
  · intro σ s v w
    rw [subsAt_writeValue, subsAt_writeValue]
    exact scheduleList_congr (subsAt σ s) (writeValue σ s v) (writeValue σ s w)
      rfl rfl

/-- Witness for C5 at scenario 1's state: effect 0 is a subscriber of signal
0 and lands in the pending queue of a fresh write. -/
theorem C5_set_notifies_witness :
    0 ∈ (scheduleList (writeValue scn1_afterEffect 0 5)
      (subsAt (writeValue scn1_afterEffect 0 5) 0)).pending_effects :=
  C5_set_notifies_unconditionally.1 scn1_afterEffect 0 5 0 (by decide) (by decide)


/-! ### Engine equation lemmas -/

/-- Helper equation: a zero-depth drain returns the state unchanged. -/
theorem flushEffects_zero (σ : RState) : flushEffects 0 σ = σ := rfl

/-- Helper equation: the drain pops an id (skipping disposed ones) and runs
it with the next-lower engine, or stops on an empty queue. -/
theorem flushEffects_succ (n : Nat) (σ : RState) :
    flushEffects (n + 1) σ =
      (match popPendingEffect σ with
       | (some id, σ1) => flushEffects n (runEffect n id σ1)
       | (none, σ1) => σ1) := rfl

/-- Helper equation: `notify_subscribers` schedules the cloned subscriber
list and drains unless batching. -/
theorem notify_eq (fuel : Nat) (σ : RState) (s : Nat) :
    notifySubscribers fuel σ s =
      (if (scheduleList σ (subsAt σ s)).is_batching
       then scheduleList σ (subsAt σ s)
       else flushEffects fuel (scheduleList σ (subsAt σ s))) := by
  cases fuel <;> rfl

/-- Helper equation: `update` mutates the value, bumps the version, and
notifies. -/
theorem update_eq (fuel : Nat) (σ : RState) (s : Nat) (f : Int → Int) :
    updateSignal fuel σ s f = notifySubscribers fuel (applyUpdate σ s f) s := by
  cases fuel <;> rfl

/-- Helper equation: the counter body is a tracked read then a bump. -/
theorem runBody_counter_eq (fuel : Nat) (sig ctr : Nat) (σ : RState) :
    runBody fuel (.counter sig ctr) σ = bumpCounter (track σ sig) ctr := by
  cases fuel <;> rfl

/-- Helper equation: the cleanup-logging body is a tracked read, a cleanup
registration tagged with the run number, then a bump. -/
theorem runBody_cleanupLog_eq (fuel : Nat) (sig ctr : Nat) (σ : RState) :
    runBody fuel (.cleanupLog sig ctr) σ =
      bumpCounter (addCleanup (track σ sig)
        ((track σ sig).counters.getD ctr 0)) ctr := by
  cases fuel <;> rfl

/-- Helper equation: the memo body recomputes, then calls `update` with the
equality-gated assignment closure. -/
theorem runBody_memo_eq (fuel : Nat) (fn : MemoFn) (backing : Nat) (σ : RState) :
    runBody fuel (.memoBody fn backing) σ =
      updateSignal fuel (evalMemoFn σ fn).2 backing
        (fun current => if current ≠ (evalMemoFn σ fn).1
          then (evalMemoFn σ fn).1 else current) := by
  cases fuel <;> rfl

/-- Helper equation: `run_effect` sets the current effect, runs a live slot
(recording the run), and restores the previous current effect. -/
theorem runEffect_match (fuel : Nat) (id : Nat) (σ : RState) :
    runEffect fuel id σ =
      { (match σ.effects.getD id none with
         | some body => runBody fuel body
             { σ with current_effect := some id
                    , trace := σ.trace ++ [REvent.ran id] }
         | none => { σ with current_effect := some id })
        with current_effect := σ.current_effect } := by
  cases fuel <;> rfl

/-! ### Tracking lemmas -/

/-- Helper equation: tracking with no current effect is a no-op. -/
theorem track_eq_none (σ : RState) (s : Nat) (hcur : σ.current_effect = none) :
    track σ s = σ := by
  unfold track
  rw [hcur]

/-- Helper equation: tracking with a current effect inserts it into the
subscriber list unless already present. -/
theorem track_eq_some (σ : RState) (s e : Nat)
    (hcur : σ.current_effect = some e) :
    track σ s =
      (if (σ.signals.getD s SignalInner.dflt).subscribers.contains e then σ
       else { σ with signals :=
          σ.signals.set s (insertSub (σ.signals.getD s SignalInner.dflt) e) }) := by
  unfold track insertSub
  rw [hcur]

/-- Helper equation: the subscriber list of a state with a replaced heap. -/
theorem subsAt_setSignals (σ : RState) (l : List SignalInner) (t : Nat) :
    subsAt { σ with signals := l } t = (l.getD t SignalInner.dflt).subscribers := rfl

/-- Helper: a tracked read of an existing signal while an effect is current
subscribes the effect. -/
theorem track_mem (σ : RState) (s e : Nat) (hcur : σ.current_effect = some e)
    (hs : s < σ.signals.length) : e ∈ subsAt (track σ s) s := by
  rw [track_eq_some σ s e hcur]
  split
  · next hin =>
    simpa [subsAt] using hin
  · rw [subsAt_setSignals, getD_set_self _ _ _ _ hs]
    simp [insertSub]

/-- Helper: tracking never removes a subscriber. -/
theorem track_subs_mono (σ : RState) (s t i : Nat)
    (h : i ∈ subsAt σ t) : i ∈ subsAt (track σ s) t := by
  cases hcur : σ.current_effect with
  | none => rw [track_eq_none σ s hcur]; exact h
  | some e =>
    rw [track_eq_some σ s e hcur]
    split
    · exact h
    · rw [subsAt_setSignals]
      by_cases hst : s = t
      · subst hst
        by_cases hlen : s < σ.signals.length
        · rw [getD_set_self _ _ _ _ hlen]
          simp only [insertSub, List.mem_append]
          exact Or.inl h
        · rw [set_oob σ.signals s _ (Nat.le_of_not_lt hlen)]
          exact h
      · rw [getD_set_ne _ _ _ _ _ hst]
        exact h

/-- Helper: tracking uses set semantics — it preserves duplicate-freeness of
every subscriber list. -/
theorem track_nodup (σ : RState) (s t : Nat)
    (h : (subsAt σ t).Nodup) : (subsAt (track σ s) t).Nodup := by
  cases hcur : σ.current_effect with
  | none => rw [track_eq_none σ s hcur]; exact h
  | some e =>
    rw [track_eq_some σ s e hcur]
    split
    · exact h
    · next hnotin =>
      rw [subsAt_setSignals]
      by_cases hst : s = t
      · subst hst
        by_cases hlen : s < σ.signals.length
        · rw [getD_set_self _ _ _ _ hlen]
          simp only [insertSub]
          refine List.Nodup.append ?_ (List.nodup_singleton e) ?_
          · simpa [subsAt] using h
          · intro x hx hx'
            obtain rfl : x = e := by simpa using hx'
            exact hnotin (by simpa [subsAt] using List.elem_eq_true_of_mem hx)
        · rw [set_oob σ.signals s _ (Nat.le_of_not_lt hlen)]
          simpa [subsAt] using h
      · rw [getD_set_ne _ _ _ _ _ hst]
        simpa [subsAt] using h

/-! ### The engine preservation package -/

/-- Helper: `enginePres` is reflexive. -/
theorem enginePres_refl (σ : RState) : enginePres σ σ :=
  ⟨fun _ _ h => h, fun h => h, rfl⟩

/-- Helper: `enginePres` is transitive. -/
theorem enginePres_trans {σ1 σ2 σ3 : RState} (h12 : enginePres σ1 σ2)
    (h23 : enginePres σ2 σ3) : enginePres σ1 σ3 :=
  ⟨fun t i h => h23.1 t i (h12.1 t i h), fun h => h23.2.1 (h12.2.1 h),
   (h23.2.2).trans h12.2.2⟩

/-- Helper: a step that leaves the signal heap and trace unchanged is in the
preservation package. -/
theorem enginePres_of_eq {σ σ' : RState} (hsig : σ'.signals = σ.signals)
    (htr : σ'.trace = σ.trace) : enginePres σ σ' := by
  refine ⟨?_, ?_, ?_⟩
  · intro t i h
    simpa [subsAt, hsig] using h
  · intro h t
    simpa [subsAt, hsig] using h t
  · show σ'.trace.filter REvent.isCleanup = σ.trace.filter REvent.isCleanup
    rw [htr]

/-- Helper: a step that preserves every subscriber list and the trace is in
the preservation package. -/
theorem enginePres_of_subs {σ σ' : RState}
    (hsub : ∀ t, subsAt σ' t = subsAt σ t) (htr : σ'.trace = σ.trace) :
    enginePres σ σ' := by
  refine ⟨?_, ?_, ?_⟩
  · intro t i h
    rw [hsub t]
    exact h
  · intro h t
    rw [hsub t]
    exact h t
  · show σ'.trace.filter REvent.isCleanup = σ.trace.filter REvent.isCleanup
    rw [htr]

/-- Helper: tracking is in the preservation package. -/
theorem enginePres_track (σ : RState) (s : Nat) : enginePres σ (track σ s) := by
  refine ⟨fun t i h => track_subs_mono σ s t i h,
    fun h t => track_nodup σ s t (h t), ?_⟩
  cases hcur : σ.current_effect with
  | none => rw [track_eq_none σ s hcur]; exact rfl
  | some e =>
    rw [track_eq_some σ s e hcur]
    split
    · exact rfl
    · exact rfl

/-- Helper: scheduling touches only the pending queue. -/
theorem enginePres_scheduleEffect (σ : RState) (id : Nat) :
    enginePres σ (scheduleEffect σ id) := by
  unfold scheduleEffect
  split
  · exact enginePres_refl σ
  split
  · exact enginePres_refl σ
  · exact enginePres_of_eq rfl rfl

/-- Helper: the subscriber loop is in the preservation package. -/
theorem enginePres_scheduleList (l : List Nat) :
    ∀ σ : RState, enginePres σ (scheduleList σ l) := by
  induction l with
  | nil => intro σ; exact enginePres_refl σ
  | cons id rest ih =>
    intro σ
    exact enginePres_trans (enginePres_scheduleEffect σ id) (ih (scheduleEffect σ id))

/-- Helper: popping the pending queue touches only the pending queue. -/
theorem enginePres_popPending (σ : RState) :
    enginePres σ (popPendingEffect σ).2 :=
  enginePres_of_eq rfl rfl

/-- Helper: bumping a counter is in the preservation package. -/
theorem enginePres_bumpCounter (σ : RState) (ctr : Nat) :
    enginePres σ (bumpCounter σ ctr) :=
  enginePres_of_eq rfl rfl

/-- Helper: registering a cleanup leaves the signal heap unchanged. -/
theorem addCleanup_signals (σ : RState) (tag : Nat) :
    (addCleanup σ tag).signals = σ.signals := by
  unfold addCleanup
  cases σ.current_effect with
  | none => rfl
  | some e => split <;> first | rfl | (split <;> rfl)

/-- Helper: registering a cleanup leaves the trace unchanged. -/
theorem addCleanup_trace (σ : RState) (tag : Nat) :
    (addCleanup σ tag).trace = σ.trace := by
  unfold addCleanup
  cases σ.current_effect with
  | none => rfl
  | some e => split <;> first | rfl | (split <;> rfl)

/-- Helper: registering a cleanup changes no subscriber list and emits no
event. -/
theorem enginePres_addCleanup (σ : RState) (tag : Nat) :
    enginePres σ (addCleanup σ tag) :=
  enginePres_of_eq (addCleanup_signals σ tag) (addCleanup_trace σ tag)

/-- Helper: recording an effect run emits no cleanup event. -/
theorem enginePres_ranAppend (σ : RState) (p : Option Nat) (id : Nat) :
    enginePres σ { σ with current_effect := p, trace := σ.trace ++ [REvent.ran id] } := by
  refine ⟨fun t i h => h, fun h => h, ?_⟩
  show (σ.trace ++ [REvent.ran id]).filter REvent.isCleanup = σ.trace.filter REvent.isCleanup
  rw [List.filter_append]
  simp [REvent.isCleanup]

/-- Helper: every engine function preserves the package — subscriber lists
only grow, duplicate-freeness is kept, and no cleanup event is emitted. -/
theorem enginePres_engine : ∀ fuel : Nat,
    (∀ σ : RState, enginePres σ (flushEffects fuel σ)) ∧
    (∀ (σ : RState) (s : Nat), enginePres σ (notifySubscribers fuel σ s)) ∧
    (∀ (σ : RState) (s : Nat) (f : Int → Int),
      enginePres σ (updateSignal fuel σ s f)) ∧
    (∀ (b : Body) (σ : RState), enginePres σ (runBody fuel b σ)) ∧
    (∀ (id : Nat) (σ : RState), enginePres σ (runEffect fuel id σ)) := by
  have step : ∀ fuel : Nat, (∀ σ : RState, enginePres σ (flushEffects fuel σ)) →
      (∀ (σ : RState) (s : Nat), enginePres σ (notifySubscribers fuel σ s)) ∧
      (∀ (σ : RState) (s : Nat) (f : Int → Int),
        enginePres σ (updateSignal fuel σ s f)) ∧
      (∀ (b : Body) (σ : RState), enginePres σ (runBody fuel b σ)) ∧
      (∀ (id : Nat) (σ : RState), enginePres σ (runEffect fuel id σ)) := by
    intro fuel hflush
    have hnotify : ∀ (σ : RState) (s : Nat),
        enginePres σ (notifySubscribers fuel σ s) := by
      intro σ s
      rw [notify_eq]
      split
      · exact enginePres_scheduleList (subsAt σ s) σ
      · exact enginePres_trans (enginePres_scheduleList (subsAt σ s) σ)
          (hflush (scheduleList σ (subsAt σ s)))
    have hupdate : ∀ (σ : RState) (s : Nat) (f : Int → Int),
        enginePres σ (updateSignal fuel σ s f) := by
      intro σ s f
      rw [update_eq]
      exact enginePres_trans
        (enginePres_of_subs (subsAt_applyUpdate σ s f) rfl)
        (hnotify (applyUpdate σ s f) s)
    have hbody : ∀ (b : Body) (σ : RState), enginePres σ (runBody fuel b σ) := by
      intro b σ
      cases b with
      | counter sig ctr =>
        rw [runBody_counter_eq]
        exact enginePres_trans (enginePres_track σ sig)
          (enginePres_bumpCounter (track σ sig) ctr)
      | cleanupLog sig ctr =>
        rw [runBody_cleanupLog_eq]
        refine enginePres_trans (enginePres_track σ sig) ?_
        refine enginePres_trans
          (enginePres_addCleanup (track σ sig) ((track σ sig).counters.getD ctr 0)) ?_
        exact enginePres_bumpCounter _ ctr
      | memoBody fn backing =>
        rw [runBody_memo_eq]
        cases fn with
        | parity src =>
          refine enginePres_trans ?_ (hupdate _ backing _)
          exact enginePres_track σ src
    have hrun : ∀ (id : Nat) (σ : RState), enginePres σ (runEffect fuel id σ) := by
      intro id σ
      rw [runEffect_match]
      cases hslot : σ.effects.getD id none with
      | none => exact enginePres_of_eq rfl rfl
      | some body =>
        refine @enginePres_trans _ (runBody fuel body
          { σ with current_effect := some id
                 , trace := σ.trace ++ [REvent.ran id] }) _ ?_ ?_
        · exact enginePres_trans (enginePres_ranAppend σ (some id) id)
            (hbody body _)
        · exact enginePres_of_eq rfl rfl
    exact ⟨hnotify, hupdate, hbody, hrun⟩
  intro fuel
  induction fuel with
  | zero =>
    have hflush : ∀ σ : RState, enginePres σ (flushEffects 0 σ) := by
      intro σ
      rw [flushEffects_zero]
      exact enginePres_refl σ
    obtain ⟨h1, h2, h3, h4⟩ := step 0 hflush
    exact ⟨hflush, h1, h2, h3, h4⟩
  | succ n ih =>
    have hflush : ∀ σ : RState, enginePres σ (flushEffects (n + 1) σ) := by
      intro σ
      rw [flushEffects_succ]
      cases hpop : popPendingEffect σ with
      | mk r σ1 =>
        cases r with
        | some id =>
          have h1 : enginePres σ σ1 := by
            have := enginePres_popPending σ
            rw [hpop] at this
            exact this
          refine enginePres_trans h1 ?_
          refine enginePres_trans ((step n ih.1).2.2.2 id σ1) (ih.1 _)
        | none =>
          have := enginePres_popPending σ
          rw [hpop] at this
          exact this
    obtain ⟨h1, h2, h3, h4⟩ := step (n + 1) hflush
    exact ⟨hflush, h1, h2, h3, h4⟩


/-! ### C2: dependency tracking -/

/-- Helper: bumping a counter leaves every subscriber list unchanged. -/
theorem subsAt_bumpCounter (σ : RState) (ctr t : Nat) :
    subsAt (bumpCounter σ ctr) t = subsAt σ t := rfl

/-- Helper: registering a cleanup leaves every subscriber list unchanged. -/
theorem subsAt_addCleanup (σ : RState) (tag t : Nat) :
    subsAt (addCleanup σ tag) t = subsAt σ t := by
  unfold subsAt
  rw [addCleanup_signals]

/-- C2: a read performed while an effect is current subscribes the effect
(`track` inserts the current effect id); insertion is idempotent, so
subscriber lists stay duplicate-free under arbitrary tracking; a full
execution of an effect whose body reads `s` leaves the effect in `s`'s
subscriber list; and whole-effect executions preserve duplicate-freeness of
every subscriber list, no matter how often they re-run. -/
theorem C2_reads_subscribe_no_duplicates :
    (∀ (σ : RState) (s e : Nat), σ.current_effect = some e →
      s < σ.signals.length → e ∈ subsAt (track σ s) s) ∧
    (∀ (σ : RState) (s t : Nat), (subsAt σ t).Nodup →
      (subsAt (track σ s) t).Nodup) ∧
    (∀ (fuel : Nat) (σ : RState) (e : Nat) (b : Body) (s : Nat),
      σ.effects.getD e none = some b → s ∈ readsOf b →
      s < σ.signals.length → e ∈ subsAt (runEffect fuel e σ) s) ∧
    (∀ (fuel id : Nat) (σ : RState), (∀ t, (subsAt σ t).Nodup) →
      ∀ t, (subsAt (runEffect fuel id σ) t).Nodup) := by
  refine ⟨track_mem, track_nodup, ?_, ?_⟩
  · intro fuel σ e b s hslot hread hs
    rw [runEffect_match, hslot]
    show e ∈ subsAt (runBody fuel b
      { σ with current_effect := some e, trace := σ.trace ++ [REvent.ran e] }) s
    cases b with
    | counter sig ctr =>
      obtain rfl : s = sig := by simpa [readsOf] using hread
      rw [runBody_counter_eq, subsAt_bumpCounter]
      exact track_mem _ s e rfl hs
    | cleanupLog sig ctr =>
      obtain rfl : s = sig := by simpa [readsOf] using hread
      rw [runBody_cleanupLog_eq, subsAt_bumpCounter, subsAt_addCleanup]
      exact track_mem _ s e rfl hs
    | memoBody fn backing =>
      cases fn with
      | parity src =>
        obtain rfl : s = src := by simpa [readsOf] using hread
        rw [runBody_memo_eq]
        refine ((enginePres_engine fuel).2.2.1 _ backing _).1 s e ?_
        exact track_mem _ s e rfl hs
  · intro fuel id σ h
    exact ((enginePres_engine fuel).2.2.2.2 id σ).2.1 h

/-- Witness for C2: in the one-signal demo state with effect 0 current, a
tracked read subscribes effect 0; a full run of the registered body does so
too, and the subscriber list is duplicate-free afterwards. -/
theorem C2_reads_subscribe_witness :
    (0 ∈ subsAt (track trackDemo 0) 0) ∧
    (0 ∈ subsAt (runEffect 3 0 trackDemo) 0) ∧
    ((subsAt (runEffect 3 0 trackDemo) 0).Nodup) := by
  refine ⟨?_, ?_, ?_⟩
  · exact C2_reads_subscribe_no_duplicates.1 trackDemo 0 0 rfl (by decide)
  · exact C2_reads_subscribe_no_duplicates.2.2.1 3 trackDemo 0 (.counter 0 0) 0
      rfl (by decide) (by decide)
  · refine C2_reads_subscribe_no_duplicates.2.2.2 3 0 trackDemo ?_ 0
    intro t
    cases t with
    | zero => decide
    | succ n => exact List.nodup_nil

/-! ### C4: cleanups -/

/-- C4 counterexample: in the cleanup scenario, the effect's cleanup list is
non-empty (`[0]`) after the first run; `w.set(1)` re-executes the effect
(the trace shows two runs) yet no cleanup event is emitted — `run_effect`
never drains cleanups, contradicting the claim that cleanups run
immediately before each re-execution. -/
theorem C4_counterexample_no_cleanup_before_rerun :
    scn4_afterEffect.effect_cleanups.getD 0 [] = [0] ∧
    scn4_afterSet.trace = [REvent.ran 0, REvent.ran 0] ∧
    REvent.cleanup 0 ∉ scn4_afterSet.trace := by
  refine ⟨by decide, by decide, by decide⟩

/-- C4 amended: cleanups run only on disposal — `run_cleanups` drains the
effect's list and runs (logs) the closures in FIFO registration order, each
exactly once (the list is emptied); effect (re-)execution never emits a
cleanup event; and in the cleanup scenario the two cleanups registered
across the two runs both fire, in order, when the scope is disposed. -/
theorem C4_amended_cleanups_on_disposal :
    (∀ (σ : RState) (e : Nat), e < σ.effect_cleanups.length →
      (runCleanups σ e).trace =
        σ.trace ++ (σ.effect_cleanups.getD e []).map REvent.cleanup ∧
      (runCleanups σ e).effect_cleanups.getD e [] = []) ∧
    (∀ (fuel id : Nat) (σ : RState),
      (runEffect fuel id σ).trace.filter REvent.isCleanup =
        σ.trace.filter REvent.isCleanup) ∧
    (scn4_afterDispose.trace =
        [REvent.ran 0, REvent.ran 0, REvent.cleanup 0, REvent.cleanup 1] ∧
      scn4_afterDispose.effect_cleanups.getD 0 [] = []) := by
  refine ⟨?_, ?_, by decide, by decide⟩
  · intro σ e h
    unfold runCleanups
    rw [if_pos h]
    exact ⟨rfl, getD_set_self _ _ _ _ h⟩
  · intro fuel id σ
    exact ((enginePres_engine fuel).2.2.2.2 id σ).2.2

/-- Witness for the amended C4 at the cleanup scenario's state. -/
theorem C4_amended_witness :
    (runCleanups scn4_afterSet 0).trace =
      scn4_afterSet.trace ++
        (scn4_afterSet.effect_cleanups.getD 0 []).map REvent.cleanup ∧
    (runCleanups scn4_afterSet 0).effect_cleanups.getD 0 [] = [] :=
  C4_amended_cleanups_on_disposal.1 scn4_afterSet 0 (by decide)


/-! ### C3: disposal lemmas -/

/-- Helper equation: `dispose_scope` with no fuel left. -/
theorem disposeScopeF_zero (σ : RState) (c : Nat) : disposeScopeF 0 σ c = σ := rfl

/-- Helper equation: one step of `dispose_scope`. -/
theorem disposeScopeF_succ (f : Nat) (σ : RState) (c : Nat) :
    disposeScopeF (f + 1) σ c =
      (if σ.scopes.length ≤ c ∨ scopeDisposed σ c then σ
       else markScopeDisposed
         (disposeEffectList
           (disposeChildrenGo (disposeScopeF f) σ (scopeChildren σ c))
           (scopeEffects
             (disposeChildrenGo (disposeScopeF f) σ (scopeChildren σ c)) c))
         c) := rfl

/-- Helper: `run_cleanups` leaves the scope tree unchanged. -/
theorem runCleanups_scopes (σ : RState) (e : Nat) :
    (runCleanups σ e).scopes = σ.scopes := by
  unfold runCleanups
  split <;> rfl

/-- Helper: `run_cleanups` leaves the disposed flags unchanged. -/
theorem runCleanups_disposed (σ : RState) (e : Nat) :
    (runCleanups σ e).effect_disposed = σ.effect_disposed := by
  unfold runCleanups
  split <;> rfl

/-- Helper: `dispose_effect` leaves the scope tree unchanged. -/
theorem disposeEffect_scopes (σ : RState) (e : Nat) :
    (disposeEffect σ e).scopes = σ.scopes := by
  unfold disposeEffect
  split
  · rfl
  · show (runCleanups σ e).scopes = σ.scopes
    exact runCleanups_scopes σ e

/-- Helper: `dispose_effect` preserves the length of the flag vector. -/
theorem disposeEffect_len (σ : RState) (e : Nat) :
    (disposeEffect σ e).effect_disposed.length = σ.effect_disposed.length := by
  unfold disposeEffect
  split
  · rfl
  · show ((runCleanups σ e).effect_disposed.set e true).length = _
    rw [List.length_set, runCleanups_disposed]

/-- Helper: `dispose_effect` never clears a disposed flag. -/
theorem disposeEffect_mono (σ : RState) (e x : Nat)
    (h : isEffectDisposed σ x = true) :
    isEffectDisposed (disposeEffect σ e) x = true := by
  unfold disposeEffect
  split
  · exact h
  · show ((runCleanups σ e).effect_disposed.set e true).getD x true = true
    rw [runCleanups_disposed]
    by_cases hex : e = x
    · subst hex
      next hguard =>
      rw [getD_set_self _ _ _ _ (by omega)]
    · rw [getD_set_ne _ _ _ _ _ hex]
      exact h

/-- Helper: `dispose_effect` marks an in-range effect disposed. -/
theorem disposeEffect_marks (σ : RState) (e : Nat)
    (h : e < σ.effect_disposed.length) :
    isEffectDisposed (disposeEffect σ e) e = true := by
  unfold disposeEffect
  split
  · next hguard => omega
  · show ((runCleanups σ e).effect_disposed.set e true).getD e true = true
    rw [runCleanups_disposed, getD_set_self _ _ _ _ h]

/-- Helper: the effect-disposal loop leaves the scope tree unchanged. -/
theorem delist_scopes (l : List Nat) :
    ∀ σ : RState, (disposeEffectList σ l).scopes = σ.scopes := by
  induction l with
  | nil => intro σ; rfl
  | cons e rest ih =>
    intro σ
    show (disposeEffectList (disposeEffect σ e) rest).scopes = σ.scopes
    rw [ih (disposeEffect σ e), disposeEffect_scopes]

/-- Helper: the effect-disposal loop preserves the flag-vector length. -/
theorem delist_len (l : List Nat) :
    ∀ σ : RState,
      (disposeEffectList σ l).effect_disposed.length =
        σ.effect_disposed.length := by
  induction l with
  | nil => intro σ; rfl
  | cons e rest ih =>
    intro σ
    show (disposeEffectList (disposeEffect σ e) rest).effect_disposed.length = _
    rw [ih (disposeEffect σ e), disposeEffect_len]

/-- Helper: the effect-disposal loop never clears a disposed flag. -/
theorem delist_mono (l : List Nat) :
    ∀ (σ : RState) (x : Nat), isEffectDisposed σ x = true →
      isEffectDisposed (disposeEffectList σ l) x = true := by
  induction l with
  | nil => intro σ x h; exact h
  | cons e rest ih =>
    intro σ x h
    exact ih (disposeEffect σ e) x (disposeEffect_mono σ e x h)

/-- Helper: the effect-disposal loop marks every listed in-range effect. -/
theorem delist_marks (l : List Nat) :
    ∀ (σ : RState) (e : Nat), e ∈ l → e < σ.effect_disposed.length →
      isEffectDisposed (disposeEffectList σ l) e = true := by
  induction l with
  | nil => intro σ e h; cases h
  | cons hd rest ih =>
    intro σ e hmem hlen
    rcases List.mem_cons.mp hmem with rfl | hmem'
    · exact delist_mono rest (disposeEffect σ e) e (disposeEffect_marks σ e hlen)
    · exact ih (disposeEffect σ hd) e hmem' (by rw [disposeEffect_len]; exact hlen)

/-- Helper: `ScopeShapeEq` is reflexive. -/
theorem shapeEq_refl (σ : RState) : ScopeShapeEq σ σ :=
  ⟨rfl, fun _ => rfl, fun _ => rfl, rfl⟩

/-- Helper: `ScopeShapeEq` is transitive. -/
theorem shapeEq_trans {σ1 σ2 σ3 : RState} (h12 : ScopeShapeEq σ1 σ2)
    (h23 : ScopeShapeEq σ2 σ3) : ScopeShapeEq σ1 σ3 :=
  ⟨h23.1.trans h12.1, fun i => (h23.2.1 i).trans (h12.2.1 i),
   fun i => (h23.2.2.1 i).trans (h12.2.2.1 i), h23.2.2.2.trans h12.2.2.2⟩

/-- Helper: equal scope trees give equal rosters, children and flags. -/
theorem scopeEffects_eq_of_scopes {σ σ' : RState} (h : σ'.scopes = σ.scopes) :
    ∀ i, scopeEffects σ' i = scopeEffects σ i := by
  intro i
  unfold scopeEffects
  rw [h]

/-- Helper: equal scope trees give equal children lists. -/
theorem scopeChildren_eq_of_scopes {σ σ' : RState} (h : σ'.scopes = σ.scopes) :
    ∀ i, scopeChildren σ' i = scopeChildren σ i := by
  intro i
  unfold scopeChildren
  rw [h]

/-- Helper: equal scope trees give equal disposed flags. -/
theorem scopeDisposed_eq_of_scopes {σ σ' : RState} (h : σ'.scopes = σ.scopes) :
    ∀ i, scopeDisposed σ' i = scopeDisposed σ i := by
  intro i
  unfold scopeDisposed
  rw [h]

/-- Helper: a shape-preserving step preserves scope-graph well-formedness. -/
theorem wf_of_shape {σ σ' : RState} (h : ScopeShapeEq σ σ') (hW : ScopesWf σ) :
    ScopesWf σ' := by
  obtain ⟨hl, he, hc, hd⟩ := h
  constructor
  · intro i hi c hmem
    rw [hc i] at hmem
    have := hW.1 i (by omega) c hmem
    exact ⟨this.1, by omega⟩
  · intro i hi e hmem
    rw [he i] at hmem
    have := hW.2 i (by omega) e hmem
    omega

/-- Helper: subtree membership transports across equal children lists. -/
theorem desc_of_children_eq {σ σ' : RState}
    (h : ∀ i, scopeChildren σ' i = scopeChildren σ i) {c d : Nat}
    (hd : ScopeDesc σ c d) : ScopeDesc σ' c d := by
  induction hd with
  | refl c => exact .refl c
  | child c c' d hmem _ ih => exact .child c c' d (by rw [h c]; exact hmem) ih

/-- Helper: the effect-disposal loop preserves the closure invariant. -/
theorem closed_delist (l : List Nat) (σ : RState) (hC : DisposedClosed σ) :
    DisposedClosed (disposeEffectList σ l) := by
  intro i hi hflag
  have hsc := delist_scopes l σ
  have hflag' : scopeDisposed σ i = true := by
    rw [scopeDisposed_eq_of_scopes hsc i] at hflag
    exact hflag
  have hi' : i < σ.scopes.length := by rw [hsc] at hi; exact hi
  obtain ⟨h1, h2⟩ := hC i hi' hflag'
  constructor
  · intro e hmem
    rw [scopeEffects_eq_of_scopes hsc i] at hmem
    exact delist_mono l σ e (h1 e hmem)
  · intro cc hmem
    rw [scopeChildren_eq_of_scopes hsc i] at hmem
    rw [scopeDisposed_eq_of_scopes hsc cc]
    exact h2 cc hmem

/-- Helper: flagging a scope preserves the graph's shape. -/
theorem mark_shape (σ : RState) (c : Nat) :
    ScopeShapeEq σ (markScopeDisposed σ c) := by
  refine ⟨by simp [markScopeDisposed], ?_, ?_, rfl⟩
  · intro i
    show ((σ.scopes.set c (flagScope (σ.scopes.getD c Scope.dflt))).getD i Scope.dflt).effects = scopeEffects σ i
    by_cases hic : c = i
    · subst hic
      by_cases hc : c < σ.scopes.length
      · rw [getD_set_self _ _ _ _ hc]
        rfl
      · rw [set_oob σ.scopes c _ (Nat.le_of_not_lt hc)]
        rfl
    · rw [getD_set_ne _ _ _ _ _ hic]
      rfl
  · intro i
    show ((σ.scopes.set c (flagScope (σ.scopes.getD c Scope.dflt))).getD i Scope.dflt).children = scopeChildren σ i
    by_cases hic : c = i
    · subst hic
      by_cases hc : c < σ.scopes.length
      · rw [getD_set_self _ _ _ _ hc]
        rfl
      · rw [set_oob σ.scopes c _ (Nat.le_of_not_lt hc)]
        rfl
    · rw [getD_set_ne _ _ _ _ _ hic]
      rfl

/-- Helper: flagging an in-range scope flags it. -/
theorem mark_flag_self (σ : RState) (c : Nat) (hc : c < σ.scopes.length) :
    scopeDisposed (markScopeDisposed σ c) c = true := by
  show ((σ.scopes.set c (flagScope (σ.scopes.getD c Scope.dflt))).getD c Scope.dflt).disposed = true
  rw [getD_set_self _ _ _ _ hc]
  rfl

/-- Helper: flagging a scope clears no other flag. -/
theorem mark_flag_mono (σ : RState) (c i : Nat)
    (h : scopeDisposed σ i = true) :
    scopeDisposed (markScopeDisposed σ c) i = true := by
  show ((σ.scopes.set c (flagScope (σ.scopes.getD c Scope.dflt))).getD i Scope.dflt).disposed = true
  by_cases hic : c = i
  · subst hic
    by_cases hc : c < σ.scopes.length
    · rw [getD_set_self _ _ _ _ hc]
      rfl
    · rw [set_oob σ.scopes c _ (Nat.le_of_not_lt hc)]
      exact h
  · rw [getD_set_ne _ _ _ _ _ hic]
    exact h

/-- Helper: flagging a scope leaves the effect flags unchanged. -/
theorem mark_effDisposed (σ : RState) (c : Nat) :
    (markScopeDisposed σ c).effect_disposed = σ.effect_disposed := rfl

/-- Helper: a fully disposed subtree (per the closure invariant) has all its
rostered effects disposed. -/
theorem closed_desc (σ : RState) (hW : ScopesWf σ) (hC : DisposedClosed σ) :
    ∀ c d : Nat, ScopeDesc σ c d → c < σ.scopes.length →
      scopeDisposed σ c = true →
      ∀ e ∈ scopeEffects σ d, isEffectDisposed σ e = true := by
  intro c d h
  induction h with
  | refl c =>
    intro hlen hflag
    exact (hC c hlen hflag).1
  | child c c' d hmem _ ih =>
    intro hlen hflag
    have hb := hW.1 c hlen c' hmem
    exact ih hb.2 ((hC c hlen hflag).2 c' hmem)


/-- Helper: flagging a scope leaves other scopes' flags unchanged. -/
theorem mark_flag_other (σ : RState) (c i : Nat) (h : c ≠ i) :
    scopeDisposed (markScopeDisposed σ c) i = scopeDisposed σ i := by
  show ((σ.scopes.set c (flagScope (σ.scopes.getD c Scope.dflt))).getD i Scope.dflt).disposed = _
  rw [getD_set_ne _ _ _ _ _ h]
  rfl

/-- Helper: the main disposal induction. With a well-formed scope graph and
the closure invariant, `dispose_scope` preserves the graph's shape, never
clears a flag, flags the target scope, maintains the closure invariant, and
marks every effect rostered in the target's subtree disposed. -/
theorem disposeScope_main : ∀ (fuel : Nat) (σ : RState) (c : Nat),
    ScopesWf σ → DisposedClosed σ → c < σ.scopes.length →
    σ.scopes.length - c ≤ fuel →
    ScopeShapeEq σ (disposeScopeF fuel σ c) ∧
    (∀ x, isEffectDisposed σ x = true →
      isEffectDisposed (disposeScopeF fuel σ c) x = true) ∧
    (∀ i, scopeDisposed σ i = true →
      scopeDisposed (disposeScopeF fuel σ c) i = true) ∧
    scopeDisposed (disposeScopeF fuel σ c) c = true ∧
    DisposedClosed (disposeScopeF fuel σ c) ∧
    (∀ d, ScopeDesc σ c d → ∀ e ∈ scopeEffects σ d,
      isEffectDisposed (disposeScopeF fuel σ c) e = true) := by
  intro fuel
  induction fuel with
  | zero =>
    intro σ c hW hC hlen hfuel
    exact absurd hfuel (by omega)
  | succ f ih =>
    intro σ c hW hC hlen hfuel
    rw [disposeScopeF_succ]
    by_cases hflag : scopeDisposed σ c = true
    · rw [if_pos (Or.inr hflag)]
      refine ⟨shapeEq_refl σ, fun x h => h, fun i h => h, hflag, hC, ?_⟩
      intro d hdesc e hmem
      exact closed_desc σ hW hC c d hdesc hlen hflag e hmem
    · have hguard : ¬ (σ.scopes.length ≤ c ∨ scopeDisposed σ c = true) := by
        rintro (h | h)
        · omega
        · exact hflag h
      rw [if_neg hguard]
      have fold : ∀ (l : List Nat) (σ0 : RState), ScopesWf σ0 → DisposedClosed σ0 →
          (∀ c' ∈ l, c' < σ0.scopes.length ∧ σ0.scopes.length - c' ≤ f) →
          ScopeShapeEq σ0 (disposeChildrenGo (disposeScopeF f) σ0 l) ∧
          (∀ x, isEffectDisposed σ0 x = true →
            isEffectDisposed (disposeChildrenGo (disposeScopeF f) σ0 l) x = true) ∧
          (∀ i, scopeDisposed σ0 i = true →
            scopeDisposed (disposeChildrenGo (disposeScopeF f) σ0 l) i = true) ∧
          (∀ c' ∈ l, scopeDisposed (disposeChildrenGo (disposeScopeF f) σ0 l) c' = true) ∧
          DisposedClosed (disposeChildrenGo (disposeScopeF f) σ0 l) ∧
          (∀ c' ∈ l, ∀ d, ScopeDesc σ0 c' d → ∀ e ∈ scopeEffects σ0 d,
            isEffectDisposed (disposeChildrenGo (disposeScopeF f) σ0 l) e = true) := by
        intro l
        induction l with
        | nil =>
          intro σ0 hW0 hC0 _
          exact ⟨shapeEq_refl σ0, fun x h => h, fun i h => h,
            fun c' hc' => absurd hc' (List.not_mem_nil c'),
            hC0, fun c' hc' => absurd hc' (List.not_mem_nil c')⟩
        | cons c0 rest ihl =>
          intro σ0 hW0 hC0 hbounds
          have hb0 := hbounds c0 (List.mem_cons_self c0 rest)
          obtain ⟨sh0, em0, sm0, flag0, cl0, sub0⟩ := ih σ0 c0 hW0 hC0 hb0.1 hb0.2
          have hW0' := wf_of_shape sh0 hW0
          have hbounds' : ∀ c' ∈ rest, c' < (disposeScopeF f σ0 c0).scopes.length ∧
              (disposeScopeF f σ0 c0).scopes.length - c' ≤ f := by
            intro c' hc'
            have hb := hbounds c' (List.mem_cons_of_mem c0 hc')
            rw [sh0.1]
            exact hb
          obtain ⟨shr, emr, smr, flagr, clr, subr⟩ :=
            ihl (disposeScopeF f σ0 c0) hW0' cl0 hbounds'
          have goEq : disposeChildrenGo (disposeScopeF f) σ0 (c0 :: rest) =
              disposeChildrenGo (disposeScopeF f) (disposeScopeF f σ0 c0) rest := rfl
          rw [goEq]
          refine ⟨shapeEq_trans sh0 shr, ?_, ?_, ?_, clr, ?_⟩
          · exact fun x h => emr x (em0 x h)
          · exact fun i h => smr i (sm0 i h)
          · intro c' hc'
            rcases List.mem_cons.mp hc' with rfl | hmem
            · exact smr c' flag0
            · exact flagr c' hmem
          · intro c' hc' d hdesc e hmem
            rcases List.mem_cons.mp hc' with rfl | hcmem
            · exact emr e (sub0 d hdesc e hmem)
            · have hdescT : ScopeDesc (disposeScopeF f σ0 c0) c' d :=
                desc_of_children_eq sh0.2.2.1 hdesc
              have hmemT : e ∈ scopeEffects (disposeScopeF f σ0 c0) d := by
                rw [sh0.2.1 d]
                exact hmem
              exact subr c' hcmem d hdescT e hmemT
      have hchildbounds : ∀ c' ∈ scopeChildren σ c,
          c' < σ.scopes.length ∧ σ.scopes.length - c' ≤ f := by
        intro c' hc'
        have hb := hW.1 c hlen c' hc'
        exact ⟨hb.2, by omega⟩
      obtain ⟨sh1, em1, sm1, flag1, cl1, sub1⟩ :=
        fold (scopeChildren σ c) σ hW hC hchildbounds
      set σ1 := disposeChildrenGo (disposeScopeF f) σ (scopeChildren σ c) with hσ1
      have hsc2 : (disposeEffectList σ1 (scopeEffects σ1 c)).scopes = σ1.scopes :=
        delist_scopes _ σ1
      set σ2 := disposeEffectList σ1 (scopeEffects σ1 c) with hσ2
      have sh2 : ScopeShapeEq σ1 σ2 :=
        ⟨by rw [hsc2], scopeEffects_eq_of_scopes hsc2,
         scopeChildren_eq_of_scopes hsc2, delist_len _ σ1⟩
      have cl2 : DisposedClosed σ2 := closed_delist _ σ1 cl1
      have hroster1 : scopeEffects σ1 c = scopeEffects σ c := sh1.2.1 c
      have hrosterD : ∀ e ∈ scopeEffects σ1 c, isEffectDisposed σ2 e = true := by
        intro e hmem
        refine delist_marks _ σ1 e hmem ?_
        rw [sh1.2.2.2]
        exact hW.2 c hlen e (by rw [← hroster1]; exact hmem)
      have shm : ScopeShapeEq σ2 (markScopeDisposed σ2 c) := mark_shape σ2 c
      have hc2len : c < σ2.scopes.length := by
        rw [sh2.1, sh1.1]
        exact hlen
      have hflagfin : scopeDisposed (markScopeDisposed σ2 c) c = true :=
        mark_flag_self σ2 c hc2len
      have hEffFin : ∀ x, isEffectDisposed σ2 x = true →
          isEffectDisposed (markScopeDisposed σ2 c) x = true := by
        intro x h
        show (markScopeDisposed σ2 c).effect_disposed.getD x true = true
        rw [mark_effDisposed]
        exact h
      refine ⟨shapeEq_trans (shapeEq_trans sh1 sh2) shm, ?_, ?_, hflagfin, ?_, ?_⟩
      · intro x h
        exact hEffFin x (delist_mono _ σ1 x (em1 x h))
      · intro i h
        refine mark_flag_mono σ2 c i ?_
        rw [scopeDisposed_eq_of_scopes hsc2 i]
        exact sm1 i h
      · -- the closure invariant holds in the final state
        intro i hi hflagi
        have hilen : i < σ2.scopes.length := by
          rw [shm.1] at hi
          exact hi
        by_cases hic : i = c
        · subst hic
          constructor
          · intro e hmem
            rw [shm.2.1 i, sh2.2.1 i] at hmem
            exact hEffFin e (hrosterD e hmem)
          · intro cc hmem
            rw [shm.2.2.1 i, sh2.2.2.1 i, sh1.2.2.1 i] at hmem
            refine mark_flag_mono σ2 i cc ?_
            rw [scopeDisposed_eq_of_scopes hsc2 cc]
            exact flag1 cc hmem
        · have hflag2 : scopeDisposed σ2 i = true := by
            rw [← mark_flag_other σ2 c i (fun hcc => hic hcc.symm)]
            exact hflagi
          obtain ⟨he2, hc2⟩ := cl2 i hilen hflag2
          constructor
          · intro e hmem
            rw [shm.2.1 i] at hmem
            exact hEffFin e (he2 e hmem)
          · intro cc hmem
            rw [shm.2.2.1 i] at hmem
            exact mark_flag_mono σ2 c cc (hc2 cc hmem)
      · -- every effect in the subtree is disposed
        intro d hdesc e hmem
        cases hdesc with
        | refl =>
          refine hEffFin e (hrosterD e ?_)
          rw [hroster1]
          exact hmem
        | child c c' d hmemc hsub =>
          exact hEffFin e (delist_mono _ σ1 e (sub1 c' hmemc d hsub e hmem))

/-- Helper: the pending-pop loop never returns a disposed id. -/
theorem popPendingList_not_disposed (disposed : List Bool) :
    ∀ (l : List Nat) (id : Nat),
      (popPendingList disposed l).1 = some id → disposed.getD id true = false := by
  intro l
  induction l with
  | nil => intro id h; cases h
  | cons hd rest ih =>
    intro id h
    rw [popPendingList] at h
    split at h
    · exact ih id h
    · next hnd =>
      obtain rfl : hd = id := by simpa using h
      simpa using hnd


/-- Helper: the first component of `pop_pending_effect` is the loop's result. -/
theorem popPendingEffect_fst (σ : RState) :
    (popPendingEffect σ).1 =
      (popPendingList σ.effect_disposed σ.pending_effects).1 := by
  unfold popPendingEffect
  rcases popPendingList σ.effect_disposed σ.pending_effects with ⟨r, rest⟩
  rfl

/-- C3: after `dispose_scope(c)` (given the scope graph well-formedness that
`create_scope` maintains and the disposal-closure invariant), every effect
registered in `c` or in any descendant scope of `c` is marked disposed; and
no such effect's body ever executes again: scheduling a disposed effect is a
no-op, the pending-queue drain never yields a disposed id, and `run_effect`
on an effect whose slot was cleared at disposal leaves the state unchanged. -/
theorem C3_dispose_scope_subtree_no_rerun :
    (∀ (fuel : Nat) (σ : RState) (c : Nat),
      ScopesWf σ → DisposedClosed σ → c < σ.scopes.length →
      σ.scopes.length - c ≤ fuel →
      ∀ d, ScopeDesc σ c d → ∀ e ∈ scopeEffects σ d,
        isEffectDisposed (disposeScopeF fuel σ c) e = true) ∧
    (∀ (σ : RState) (id : Nat), isEffectDisposed σ id = true →
      scheduleEffect σ id = σ) ∧
    (∀ (σ : RState) (id : Nat), (popPendingEffect σ).1 = some id →
      isEffectDisposed σ id = false) ∧
    (∀ (fuel id : Nat) (σ : RState), σ.effects.getD id none = none →
      runEffect fuel id σ = σ) := by
  refine ⟨?_, ?_, ?_, ?_⟩
  · intro fuel σ c hW hC hlen hfuel
    exact (disposeScope_main fuel σ c hW hC hlen hfuel).2.2.2.2.2
  · intro σ id h
    unfold scheduleEffect
    rw [if_pos h]
  · intro σ id h
    rw [popPendingEffect_fst] at h
    exact popPendingList_not_disposed σ.effect_disposed σ.pending_effects id h
  · intro fuel id σ h
    rw [runEffect_match, h]

/-- C3 witness: in the dispose scenario (a root scope with a child scope
holding effect 0), disposing the root marks effect 0 disposed, scheduling it
afterwards changes nothing, the drain yields nothing, and running its cleared
slot changes nothing. -/
theorem C3_dispose_scope_witness :
    isEffectDisposed (disposeScopeF 99 scn3_afterEffect 0) 0 = true ∧
    scheduleEffect scn3_afterDispose 0 = scn3_afterDispose ∧
    runEffect 5 0 scn3_afterDispose = scn3_afterDispose := by
  refine ⟨?_, ?_, ?_⟩
  · exact C3_dispose_scope_subtree_no_rerun.1 99 scn3_afterEffect 0
      (by unfold ScopesWf; decide) (by unfold DisposedClosed; decide)
      (by decide) (by decide) 1
      (ScopeDesc.child 0 1 1 (by decide) (ScopeDesc.refl 1)) 0 (by decide)
  · exact C3_dispose_scope_subtree_no_rerun.2.1 scn3_afterDispose 0 (by rfl)
  · exact C3_dispose_scope_subtree_no_rerun.2.2.2 5 0 scn3_afterDispose (by rfl)

end NextRs
